import Mathlib

set_option maxRecDepth 8192

/-!
Verification of the RoomieMatch listing core (`src/mcp/agent.py`) against its
specification.  The Python source is shallowly embedded: strings are Lean
`String`s (lists of characters), the in-memory store `ROOMS_DB` is a
`List Room`, mutation returns the new list, and nondeterministic inputs
(today's date, the generated UUID key) are explicit parameters.  Python's
text handling (`str.strip`, `str.lower`, `str.capitalize`, the `re.sub`
patterns `\s+`, `[^\w\s]`, `_`) is modelled for ASCII character classes.
-/

namespace Roomie

/-! ### Character classes (ASCII model of Python `\s`, `\w`, case maps) -/

/-- Python whitespace class `\s` (ASCII part): space, tab, LF, VT, FF, CR. -/
def pySpace (c : Char) : Bool :=
  c.toNat == 32 || c.toNat == 9 || c.toNat == 10 || c.toNat == 11 ||
  c.toNat == 12 || c.toNat == 13

/-- ASCII uppercase letter. -/
def upperAscii (c : Char) : Bool := 65 ≤ c.toNat && c.toNat ≤ 90

/-- ASCII lowercase letter. -/
def lowerAscii (c : Char) : Bool := 97 ≤ c.toNat && c.toNat ≤ 122

/-- ASCII digit. -/
def digitAscii (c : Char) : Bool := 48 ≤ c.toNat && c.toNat ≤ 57

/-- Python word class `\w` (ASCII part): letters, digits, underscore. -/
def wordChar (c : Char) : Bool :=
  digitAscii c || upperAscii c || lowerAscii c || c.toNat == 95

/-- ASCII lowering, as in Python `str.lower` restricted to ASCII. -/
def lowerChar (c : Char) : Char :=
  if upperAscii c then Char.ofNat (c.toNat + 32) else c

/-- ASCII uppering, as used by Python `str.capitalize` on the first char. -/
def upperChar (c : Char) : Char :=
  if lowerAscii c then Char.ofNat (c.toNat - 32) else c

/-! ### List-of-characters primitives for the regex pipeline -/

/-- Remove leading whitespace (left part of Python `str.strip`). -/
def stripL (l : List Char) : List Char := l.dropWhile pySpace

/-- Remove trailing whitespace (right part of Python `str.strip`). -/
def stripR (l : List Char) : List Char := ((l.reverse).dropWhile pySpace).reverse

/-- Python `str.strip` (ASCII whitespace). -/
def stripChars (l : List Char) : List Char := stripR (stripL l)

/-- The term `re.sub(r"\s+", " ", ·)`: replace every maximal whitespace run by a
single space. -/
def collapseWS : List Char → List Char
  | [] => []
  | [c] => if pySpace c then [' '] else [c]
  | c :: d :: rest =>
    if pySpace c && pySpace d then collapseWS (d :: rest)
    else (if pySpace c then ' ' else c) :: collapseWS (d :: rest)

/-- The term `re.sub(r"[^\w\s]", "", ·)`: drop characters that are neither word
characters nor whitespace. -/
def removePunct (l : List Char) : List Char :=
  l.filter (fun c => wordChar c || pySpace c)

/-- The term `re.sub(r"_", " ", ·)`: underscores become spaces. -/
def underscoreToSpace (l : List Char) : List Char :=
  l.map (fun c => if c == '_' then ' ' else c)

/-! ### `_cleanup_basic` -/

/-- Python `str.strip` on strings. -/
def pyStrip (s : String) : String := String.mk (stripChars s.toList)

/-- Python `str.lower` on strings (ASCII). -/
def pyLower (s : String) : String := String.mk (s.toList.map lowerChar)

/-- The term `_cleanup_basic` from `agent.py`:
`if not text: return ""`, then strip+lower, collapse whitespace, strip
punctuation, underscores to spaces, collapse whitespace and strip again. -/
def cleanupBasic (s : String) : String :=
  if s = "" then ""
  else
    let t := (stripChars s.toList).map lowerChar
    let t := collapseWS t
    let t := removePunct t
    let t := underscoreToSpace t
    let t := stripChars (collapseWS t)
    String.mk t

example : cleanupBasic "  Bengaluru!  " = "bengaluru" := by decide
example : cleanupBasic "HSR__Layout" = "hsr layout" := by decide
example : cleanupBasic "   " = "" := by decide
example : cleanupBasic "a\t\tb" = "a b" := by decide

/-! ### Characterization of `_cleanup_basic` output and idempotence -/

/-- A character that can appear in cleaned output: a non-underscore,
non-uppercase word character, or a single space. -/
def goodChar (c : Char) : Bool :=
  (wordChar c && !upperAscii c && !(c == '_')) || c == ' '

theorem char_eq_of_toNat {c d : Char} (h : c.toNat = d.toNat) : c = d := by
  cases c with
  | mk v hv =>
    cases d with
    | mk w hw =>
      simp only [Char.toNat] at h
      have : v = w := UInt32.ext h
      subst this; rfl

theorem and_true_split {a b : Bool} (h : (a && b) = true) : a = true ∧ b = true := by
  cases a <;> cases b <;> simp_all

theorem pySpace_space : pySpace ' ' = true := by decide

theorem toNat_ofNat_valid {n : Nat} (h : n < 55296) : (Char.ofNat n).toNat = n := by
  have hv : n.isValidChar := Or.inl h
  simp [Char.ofNat, Char.ofNatAux, Char.toNat, hv, UInt32.toNat, UInt32.ofNatCore,
    BitVec.toNat_ofNatLt]

theorem upperAscii_lowerChar (c : Char) : upperAscii (lowerChar c) = false := by
  unfold lowerChar
  by_cases h : upperAscii c = true
  · simp only [h, if_true]
    have hb : 65 ≤ c.toNat ∧ c.toNat ≤ 90 := by
      simpa [upperAscii, Bool.and_eq_true, decide_eq_true_eq] using h
    have ht : (Char.ofNat (c.toNat + 32)).toNat = c.toNat + 32 :=
      toNat_ofNat_valid (by omega)
    simp [upperAscii, ht]; omega
  · simp only [Bool.not_eq_true] at h
    simp [h]

theorem lowerChar_fix {c : Char} (h : upperAscii c = false) : lowerChar c = c := by
  simp [lowerChar, h]

theorem wordChar_not_pySpace {c : Char} (h : wordChar c = true) : pySpace c = false := by
  simp only [wordChar, digitAscii, upperAscii, lowerAscii, Bool.or_eq_true,
    Bool.and_eq_true, decide_eq_true_eq, beq_iff_eq] at h
  simp only [pySpace, Bool.or_eq_false_iff, beq_eq_false_iff_ne, ne_eq]
  omega

theorem goodChar_space {c : Char} (hg : goodChar c = true) (hs : pySpace c = true) :
    c = ' ' := by
  simp only [goodChar, Bool.or_eq_true, Bool.and_eq_true, beq_iff_eq] at hg
  rcases hg with ⟨⟨hw, _⟩, _⟩ | h
  · exact absurd hs (by simp [wordChar_not_pySpace hw])
  · exact h

theorem goodChar_not_upper {c : Char} (hg : goodChar c = true) :
    upperAscii c = false := by
  simp only [goodChar, Bool.or_eq_true, Bool.and_eq_true, Bool.not_eq_true',
    beq_iff_eq] at hg
  rcases hg with ⟨⟨_, h⟩, _⟩ | h
  · exact h
  · subst h; rfl

theorem goodChar_not_underscore {c : Char} (hg : goodChar c = true) :
    (c == '_') = false := by
  simp only [goodChar, Bool.or_eq_true, Bool.and_eq_true, Bool.not_eq_true',
    beq_iff_eq] at hg
  rcases hg with ⟨⟨_, _⟩, h⟩ | h
  · exact h
  · subst h; rfl

theorem goodChar_keep {c : Char} (hg : goodChar c = true) :
    (wordChar c || pySpace c) = true := by
  simp only [goodChar, Bool.or_eq_true, Bool.and_eq_true, beq_iff_eq] at hg
  rcases hg with ⟨⟨h, _⟩, _⟩ | h
  · simp [h]
  · subst h; rfl

/-! #### `collapseWS` lemmas -/

theorem mem_collapseWS {c : Char} :
    ∀ {l : List Char}, c ∈ collapseWS l → c = ' ' ∨ (c ∈ l ∧ pySpace c = false) := by
  intro l
  induction l with
  | nil => simp [collapseWS]
  | cons a t ih =>
    cases t with
    | nil =>
      by_cases h : pySpace a = true
      · rw [collapseWS, if_pos h]
        intro hc; exact Or.inl (List.mem_singleton.mp hc)
      · rw [collapseWS, if_neg h]
        intro hc
        have hca : c = a := List.mem_singleton.mp hc
        subst hca
        exact Or.inr ⟨List.mem_singleton_self _, Bool.not_eq_true _ ▸ h⟩
    | cons d rest =>
      intro hc
      by_cases h : (pySpace a && pySpace d) = true
      · rw [collapseWS, if_pos h] at hc
        rcases ih hc with h1 | ⟨h1, h2⟩
        · exact Or.inl h1
        · exact Or.inr ⟨List.mem_cons_of_mem _ h1, h2⟩
      · rw [collapseWS, if_neg h] at hc
        rcases List.mem_cons.mp hc with h1 | h1
        · by_cases hsa : pySpace a = true
          · rw [if_pos hsa] at h1; exact Or.inl h1
          · rw [if_neg hsa] at h1; subst h1
            exact Or.inr ⟨List.mem_cons_self _ _, Bool.not_eq_true _ ▸ hsa⟩
        · rcases ih h1 with h2 | ⟨h2, h3⟩
          · exact Or.inl h2
          · exact Or.inr ⟨List.mem_cons_of_mem _ h2, h3⟩

theorem head?_collapseWS_pySpace :
    ∀ l : List Char, (collapseWS l).head?.map pySpace = l.head?.map pySpace := by
  intro l
  induction l with
  | nil => simp [collapseWS]
  | cons a t ih =>
    cases t with
    | nil =>
      by_cases h : pySpace a = true
      · rw [collapseWS, if_pos h]; simp [h, pySpace_space]
      · rw [collapseWS, if_neg h]
    | cons d rest =>
      by_cases h : (pySpace a && pySpace d) = true
      · rw [collapseWS, if_pos h, ih]
        rcases and_true_split h with ⟨h1, h2⟩
        simp [h1, h2]
      · rw [collapseWS, if_neg h]
        by_cases hsa : pySpace a = true
        · rw [if_pos hsa]; simp [hsa, pySpace_space]
        · rw [if_neg hsa]; simp

theorem chain'_collapseWS :
    ∀ l : List Char,
      (collapseWS l).Chain' (fun a b => ¬(pySpace a = true ∧ pySpace b = true)) := by
  intro l
  induction l with
  | nil => simp [collapseWS]
  | cons a t ih =>
    cases t with
    | nil =>
      by_cases h : pySpace a = true
      · rw [collapseWS, if_pos h]; simp
      · rw [collapseWS, if_neg h]; simp
    | cons d rest =>
      by_cases h : (pySpace a && pySpace d) = true
      · rw [collapseWS, if_pos h]; exact ih
      · rw [collapseWS, if_neg h]
        rw [List.chain'_cons']
        refine ⟨?_, ih⟩
        intro y hy
        have hh := head?_collapseWS_pySpace (d :: rest)
        rw [hy] at hh
        simp only [List.head?_cons, Option.map_some'] at hh
        have hyd : pySpace y = pySpace d := Option.some.inj hh
        have hnot : ¬(pySpace a = true ∧ pySpace d = true) := by
          intro hb; exact h (by simp [hb.1, hb.2])
        by_cases hsa : pySpace a = true
        · rw [if_pos hsa]
          intro hys
          exact hnot ⟨hsa, hyd ▸ hys.2⟩
        · rw [if_neg hsa]
          intro hys
          exact hsa hys.1

theorem collapseWS_spaces {c : Char} {l : List Char} (hc : c ∈ collapseWS l)
    (hs : pySpace c = true) : c = ' ' := by
  rcases mem_collapseWS hc with h | ⟨_, h⟩
  · exact h
  · exact absurd hs (by simp [h])

/-- The term `collapseWS` is the identity on lists whose only whitespace character is
a single space and which have no two adjacent whitespace characters. -/
theorem collapseWS_id :
    ∀ {l : List Char}, (∀ c ∈ l, pySpace c = true → c = ' ') →
      l.Chain' (fun a b => ¬(pySpace a = true ∧ pySpace b = true)) →
      collapseWS l = l := by
  intro l
  induction l with
  | nil => intro _ _; rfl
  | cons a t ih =>
    intro hsp hch
    cases t with
    | nil =>
      by_cases h : pySpace a = true
      · rw [collapseWS, if_pos h, hsp a (List.mem_singleton_self _) h]
      · rw [collapseWS, if_neg h]
    | cons d rest =>
      have hnot : ¬(pySpace a = true ∧ pySpace d = true) :=
        (List.chain'_cons.mp hch).1
      have hcond : ¬((pySpace a && pySpace d) = true) := by
        intro hb; exact hnot (and_true_split hb)
      rw [collapseWS, if_neg hcond]
      have htail := ih (fun c hc h => hsp c (List.mem_cons_of_mem _ hc) h)
        (List.chain'_cons.mp hch).2
      rw [htail]
      by_cases hsa : pySpace a = true
      · rw [if_pos hsa, hsp a (List.mem_cons_self _ _) hsa]
      · rw [if_neg hsa]

/-! #### `strip` lemmas -/

theorem head?_dropWhile_false {p : Char → Bool} :
    ∀ {l : List Char} {h : Char}, (l.dropWhile p).head? = some h → p h = false := by
  intro l
  induction l with
  | nil => intro h hh; simp at hh
  | cons a t ih =>
    intro h hh
    by_cases hp : p a = true
    · rw [List.dropWhile_cons_of_pos hp] at hh
      exact ih hh
    · rw [List.dropWhile_cons_of_neg hp] at hh
      simp only [List.head?_cons, Option.some.injEq] at hh
      subst hh
      exact Bool.not_eq_true _ ▸ hp

theorem stripR_front (l : List Char) : stripR l <+: l := by
  have h1 : (l.reverse.dropWhile pySpace) <:+ l.reverse := List.dropWhile_suffix _
  have h2 : (stripR l).reverse <:+ l.reverse := by
    simpa [stripR] using h1
  exact List.reverse_suffix.mp (by simpa using h2)

theorem stripChars_within (l : List Char) : stripChars l <:+: l := by
  have h1 : stripChars l <+: stripL l := stripR_front _
  have h2 : stripL l <:+ l := List.dropWhile_suffix _
  exact h1.isInfix.trans h2.isInfix

theorem mem_stripChars {c : Char} {l : List Char} (h : c ∈ stripChars l) : c ∈ l :=
  (stripChars_within l).sublist.mem h

theorem head?_stripChars_false {l : List Char} {h : Char}
    (hh : (stripChars l).head? = some h) : pySpace h = false := by
  rcases stripR_front (stripL l) with ⟨t, ht⟩
  have hne : stripChars l ≠ [] := by
    intro hnil; rw [hnil] at hh; simp at hh
  have : (stripL l).head? = some h := by
    rw [← ht]
    cases hsc : stripChars l with
    | nil => exact absurd hsc hne
    | cons x xs =>
      rw [hsc] at hh
      simp only [List.head?_cons, Option.some.injEq] at hh
      subst hh
      simp [stripChars] at hsc
      rw [hsc] at ht ⊢
      simp
  exact head?_dropWhile_false this

theorem getLast?_stripChars_false {l : List Char} {h : Char}
    (hh : (stripChars l).getLast? = some h) : pySpace h = false := by
  have hr : (stripChars l).reverse.head? = some h := by
    rw [List.head?_reverse]; exact hh
  have : ((stripL l).reverse.dropWhile pySpace).head? = some h := by
    simpa [stripChars, stripR] using hr
  exact head?_dropWhile_false this

theorem dropWhile_eq_self_of_head {p : Char → Bool} {l : List Char}
    (h : ∀ c, l.head? = some c → p c = false) : l.dropWhile p = l := by
  cases l with
  | nil => rfl
  | cons a t =>
    have := h a (by simp)
    rw [List.dropWhile_cons_of_neg (by simp [this])]

theorem stripChars_id {l : List Char}
    (hhead : ∀ c, l.head? = some c → pySpace c = false)
    (hlast : ∀ c, l.getLast? = some c → pySpace c = false) :
    stripChars l = l := by
  have h1 : stripL l = l := dropWhile_eq_self_of_head hhead
  have h2 : l.reverse.dropWhile pySpace = l.reverse := by
    apply dropWhile_eq_self_of_head
    intro c hc
    exact hlast c (by rwa [List.head?_reverse] at hc)
  simp [stripChars, stripR, h1, h2]

/-! #### The cleaned-output invariant -/

/-- Invariant of `_cleanup_basic` output: every character is good, no two
adjacent whitespace characters, and no leading or trailing whitespace. -/
def cleanedP (l : List Char) : Prop :=
  (∀ c ∈ l, goodChar c = true) ∧
  l.Chain' (fun a b => ¬(pySpace a = true ∧ pySpace b = true)) ∧
  (∀ c, l.head? = some c → pySpace c = false) ∧
  (∀ c, l.getLast? = some c → pySpace c = false)

theorem map_eq_self_of_fix {f : Char → Char} {l : List Char}
    (h : ∀ c ∈ l, f c = c) : l.map f = l := by
  induction l with
  | nil => rfl
  | cons a t ih =>
    simp only [List.map_cons, h a (List.mem_cons_self _ _),
      ih (fun c hc => h c (List.mem_cons_of_mem _ hc))]

/-- Every `_cleanup_basic` stage is the identity on cleaned lists, so the
whole pipeline is. -/
theorem cleanup_of_cleaned {s : String} (h : cleanedP s.toList) :
    cleanupBasic s = s := by
  by_cases hs : s = ""
  · rw [hs]; rfl
  · obtain ⟨hgood, hchain, hhead, hlast⟩ := h
    have hstrip : stripChars s.toList = s.toList := stripChars_id hhead hlast
    have hlower : (s.toList).map lowerChar = s.toList :=
      map_eq_self_of_fix (fun c hc => lowerChar_fix (goodChar_not_upper (hgood c hc)))
    have hsp : ∀ c ∈ s.toList, pySpace c = true → c = ' ' :=
      fun c hc => goodChar_space (hgood c hc)
    have hcoll : collapseWS s.toList = s.toList := collapseWS_id hsp hchain
    have hfilter : removePunct s.toList = s.toList :=
      List.filter_eq_self.mpr (fun c hc => goodChar_keep (hgood c hc))
    have hund : underscoreToSpace s.toList = s.toList :=
      map_eq_self_of_fix (fun c hc => by
        simp [goodChar_not_underscore (hgood c hc)])
    rw [cleanupBasic, if_neg hs]
    simp only [hstrip, hlower, hcoll, hfilter, hund]
    cases s with
    | mk data => rfl

/-- The output of `_cleanup_basic` satisfies the cleaned invariant. -/
theorem cleanup_cleaned (s : String) : cleanedP (cleanupBasic s).toList := by
  by_cases hs : s = ""
  · rw [hs]; exact ⟨by simp [cleanupBasic], by simp [cleanupBasic], by simp [cleanupBasic],
      by simp [cleanupBasic]⟩
  · rw [cleanupBasic, if_neg hs]
    set a := (stripChars s.toList).map lowerChar with ha
    set d := underscoreToSpace (removePunct (collapseWS a)) with hd
    have htl : (String.mk (stripChars (collapseWS d))).toList = stripChars (collapseWS d) := rfl
    refine ⟨?_, ?_, ?_, ?_⟩
    · -- all characters good
      intro c hc
      rw [htl] at hc
      have hc1 : c ∈ collapseWS d := mem_stripChars hc
      rcases mem_collapseWS hc1 with hsp | ⟨hcd, hns⟩
      · simp [goodChar, hsp]
      · -- c came through underscore-mapping of the punctuation filter
        rw [hd] at hcd
        simp only [underscoreToSpace, List.mem_map] at hcd
        obtain ⟨c', hc', hcc⟩ := hcd
        by_cases hu : c' == '_'
        · exfalso
          rw [if_pos hu] at hcc
          subst hcc
          exact absurd pySpace_space (by simp [hns])
        · rw [if_neg hu] at hcc
          subst hcc
          simp only [removePunct, List.mem_filter] at hc'
          obtain ⟨hc'b, hkeep⟩ := hc'
          have hword : wordChar c' = true := by
            rcases Bool.or_eq_true_iff.mp hkeep with hw | hw
            · exact hw
            · exact absurd hw (by simp [hns])
          have hup : upperAscii c' = false := by
            rcases mem_collapseWS hc'b with hsp' | ⟨hc'a, _⟩
            · subst hsp'; decide
            · rw [ha] at hc'a
              simp only [List.mem_map] at hc'a
              obtain ⟨c'', _, hcc'⟩ := hc'a
              rw [← hcc']
              exact upperAscii_lowerChar c''
          simp [goodChar, hword, hup, hu]
    · -- no two adjacent whitespace characters
      rw [htl]
      exact List.Chain'.infix (chain'_collapseWS d) (stripChars_within _)
    · -- no leading whitespace
      intro c hc
      rw [htl] at hc
      exact head?_stripChars_false hc
    · -- no trailing whitespace
      intro c hc
      rw [htl] at hc
      exact getLast?_stripChars_false hc

/-- The term `_cleanup_basic` is idempotent. -/
theorem cleanupBasic_idem (s : String) : cleanupBasic (cleanupBasic s) = cleanupBasic s :=
  cleanup_of_cleaned (cleanup_cleaned s)

/-- A whitespace-only (or empty) string cleans to the empty string. -/
theorem cleanupBasic_all_space {s : String} (h : ∀ c ∈ s.toList, pySpace c = true) :
    cleanupBasic s = "" := by
  by_cases hs : s = ""
  · rw [hs]; rfl
  · have hnil : stripL s.toList = [] := List.dropWhile_eq_nil_iff.mpr h
    have hstr : stripChars s.toList = [] := by rw [stripChars, hnil]; rfl
    rw [cleanupBasic, if_neg hs]
    show String.mk (stripChars (collapseWS (underscoreToSpace (removePunct
      (collapseWS ((stripChars s.toList).map lowerChar)))))) = ""
    rw [hstr]
    rfl

/-! ### Synonym tables and the `normalize_*` functions -/

/-- Modelled from the spec: the static alias tables `CITY_SYNONYMS` and
`AREA_SYNONYMS` live in the repository's `cities_and_areas` module, which is
not in the source tree.  The spec describes them as static mappings "from raw
normalized text to a canonical display/comparison form" used for synonym
resolution; we model a representative city table whose keys are cleaned alias
strings and whose values are canonical cleaned city names. -/
def CITY_SYNONYMS : List (String × String) :=
  [("blr", "bengaluru"), ("bangalore", "bengaluru"),
   ("bombay", "mumbai"), ("gurgaon", "gurugram")]

/-- Modelled from the spec: representative area alias table (see
`CITY_SYNONYMS`). -/
def AREA_SYNONYMS : List (String × String) :=
  [("hsr", "hsr layout"), ("kormangala", "koramangala")]

/-- Python dict `.get(k, default)` over an association list. -/
def dictGet (tbl : List (String × String)) (k dflt : String) : String :=
  (tbl.lookup k).getD dflt

/-- Python truthiness of an optional string (`None` and `""` are falsy). -/
def strFalsy : Option String → Bool
  | none => true
  | some s => s == ""

/-- The term `normalize_city` from `agent.py`. -/
def normalize_city (text : Option String) : String :=
  if strFalsy text then ""
  else dictGet CITY_SYNONYMS (cleanupBasic (text.getD "")) (cleanupBasic (text.getD ""))

/-- The term `normalize_area` from `agent.py`. -/
def normalize_area (text : Option String) : String :=
  if strFalsy text then ""
  else dictGet AREA_SYNONYMS (cleanupBasic (text.getD "")) (cleanupBasic (text.getD ""))

/-- The term `normalize_amenity` from `agent.py`. -/
def normalize_amenity (a : String) : String := cleanupBasic a

/-- Every value of the modelled city table is a cleaned fixed point that is
not itself an alias key. -/
theorem city_lookup_values {k v : String} (h : CITY_SYNONYMS.lookup k = some v) :
    cleanupBasic v = v ∧ CITY_SYNONYMS.lookup v = none ∧ v ≠ "" := by
  simp only [CITY_SYNONYMS, List.lookup] at h
  repeat' split at h
  all_goals
    first
      | (injection h with h; subst h; exact ⟨by decide, by decide, by decide⟩)
      | exact absurd h (by simp)

theorem area_lookup_values {k v : String} (h : AREA_SYNONYMS.lookup k = some v) :
    cleanupBasic v = v ∧ AREA_SYNONYMS.lookup v = none ∧ v ≠ "" := by
  simp only [AREA_SYNONYMS, List.lookup] at h
  repeat' split at h
  all_goals
    first
      | (injection h with h; subst h; exact ⟨by decide, by decide, by decide⟩)
      | exact absurd h (by simp)

theorem normalize_city_idem (x : String) :
    normalize_city (some (normalize_city (some x))) = normalize_city (some x) := by
  by_cases hx : x = ""
  · subst hx; rfl
  · have hout : normalize_city (some x) =
        dictGet CITY_SYNONYMS (cleanupBasic x) (cleanupBasic x) := by
      rw [normalize_city, if_neg (by simp [strFalsy, hx])]
      rfl
    cases hl : CITY_SYNONYMS.lookup (cleanupBasic x) with
    | some v =>
      obtain ⟨hv1, hv2, hv3⟩ := city_lookup_values hl
      have hyx : normalize_city (some x) = v := by rw [hout, dictGet, hl]; rfl
      rw [hyx, normalize_city, if_neg (by simp [strFalsy, hv3])]
      show dictGet CITY_SYNONYMS (cleanupBasic v) (cleanupBasic v) = v
      rw [dictGet, hv1, hv2]
      rfl
    | none =>
      have hyx : normalize_city (some x) = cleanupBasic x := by rw [hout, dictGet, hl]; rfl
      rw [hyx]
      by_cases hc : cleanupBasic x = ""
      · rw [hc]; rfl
      · rw [normalize_city, if_neg (by simp [strFalsy, hc])]
        show dictGet CITY_SYNONYMS (cleanupBasic (cleanupBasic x))
          (cleanupBasic (cleanupBasic x)) = cleanupBasic x
        rw [dictGet, cleanupBasic_idem, hl]
        rfl

theorem normalize_area_idem (x : String) :
    normalize_area (some (normalize_area (some x))) = normalize_area (some x) := by
  by_cases hx : x = ""
  · subst hx; rfl
  · have hout : normalize_area (some x) =
        dictGet AREA_SYNONYMS (cleanupBasic x) (cleanupBasic x) := by
      rw [normalize_area, if_neg (by simp [strFalsy, hx])]
      rfl
    cases hl : AREA_SYNONYMS.lookup (cleanupBasic x) with
    | some v =>
      obtain ⟨hv1, hv2, hv3⟩ := area_lookup_values hl
      have hyx : normalize_area (some x) = v := by rw [hout, dictGet, hl]; rfl
      rw [hyx, normalize_area, if_neg (by simp [strFalsy, hv3])]
      show dictGet AREA_SYNONYMS (cleanupBasic v) (cleanupBasic v) = v
      rw [dictGet, hv1, hv2]
      rfl
    | none =>
      have hyx : normalize_area (some x) = cleanupBasic x := by rw [hout, dictGet, hl]; rfl
      rw [hyx]
      by_cases hc : cleanupBasic x = ""
      · rw [hc]; rfl
      · rw [normalize_area, if_neg (by simp [strFalsy, hc])]
        show dictGet AREA_SYNONYMS (cleanupBasic (cleanupBasic x))
          (cleanupBasic (cleanupBasic x)) = cleanupBasic x
        rw [dictGet, cleanupBasic_idem, hl]
        rfl

/-! ### Dates (`datetime.date`, `timedelta(days=30)`, `isoformat`) -/

structure PyDate where
  year : Nat
  month : Nat
  day : Nat
deriving DecidableEq

def isLeap (y : Nat) : Bool := (y % 4 == 0 && y % 100 != 0) || y % 400 == 0

def daysInMonth (y m : Nat) : Nat :=
  if m = 2 then (if isLeap y then 29 else 28)
  else if m = 4 ∨ m = 6 ∨ m = 9 ∨ m = 11 then 30
  else 31

def nextDay (d : PyDate) : PyDate :=
  if d.day < daysInMonth d.year d.month then ⟨d.year, d.month, d.day + 1⟩
  else if d.month < 12 then ⟨d.year, d.month + 1, 1⟩
  else ⟨d.year + 1, 1, 1⟩

/-- The term `d + timedelta(days=n)` in the Gregorian calendar. -/
def addDays (d : PyDate) : Nat → PyDate
  | 0 => d
  | n + 1 => nextDay (addDays d n)

/-- The decimal digit character for `d < 10`. -/
def digitCh (d : Nat) : Char := Char.ofNat (48 + d)

/-- Base-10 digit list of `n`, most significant first (fuel-structured so that
it evaluates by kernel reduction). -/
def toDecimalAux : Nat → Nat → List Char
  | 0, _ => []
  | fuel + 1, n =>
    if n < 10 then [digitCh n]
    else toDecimalAux fuel (n / 10) ++ [digitCh (n % 10)]

/-- Decimal rendering of a natural number, as Python `str(n)`. -/
def toDecimal (n : Nat) : List Char := toDecimalAux (n + 1) n

/-- Zero-padded decimal rendering, as in `f"{n:03d}"` for nonnegative `n`. -/
def padNum (w : Nat) (n : Nat) : String :=
  let s := toDecimal n
  String.mk (List.replicate (w - s.length) '0' ++ s)

/-- The term `date.isoformat()`: `YYYY-MM-DD`. -/
def isoformat (d : PyDate) : String :=
  padNum 4 d.year ++ "-" ++ padNum 2 d.month ++ "-" ++ padNum 2 d.day

example : isoformat ⟨2025, 8, 1⟩ = "2025-08-01" := by decide
example : isoformat (addDays ⟨2025, 8, 1⟩ 30) = "2025-08-31" := by decide

/-! ### The listing store -/

structure Location where
  city : String
  area : String
  pincode : String
deriving DecidableEq

/-- One entry of `ROOMS_DB`, with the fields `add_room` writes. -/
structure Room where
  id : String
  management_key : String
  location : Location
  rent : Int
  gender_pref : String
  amenities : List String
  description : String
  photo_url : Option String
  date_posted : String
  is_active : Bool
  expires_at : String
  spots_available : Int
deriving DecidableEq

/-- Python `str.capitalize`: first character uppercased, the rest lowered
(ASCII model). -/
def capitalize (s : String) : String :=
  match s.toList with
  | [] => ""
  | c :: rest => String.mk (upperChar c :: rest.map lowerChar)

example : capitalize "  male".toList.asString = " " ++ " male" := by decide
example : capitalize "fEMALE" = "Female" := by decide

/-- Python truthiness of an optional int (`None` and `0` are falsy). -/
def intFalsy : Option Int → Bool
  | none => true
  | some n => n == 0

/-! ### `add_room` -/

inductive AddResult
  | missing (fields : List String)
  | invalidGender
  | success (public_id : String) (secret_key : String)
deriving DecidableEq

/-- The term `int(...)` on a digit string: fold the digit values. -/
def digitsVal (l : List Char) : Nat :=
  l.foldl (fun n c => 10 * n + (c.toNat - 48)) 0

/-- Numeric suffix of a public id matching `R<digits>`
(`r['id'].startswith('R') and r['id'][1:].isdigit()`). -/
def idSuffix (id : String) : Option Nat :=
  match id.toList with
  | c :: rest =>
    if c = 'R' ∧ rest ≠ [] ∧ rest.all digitAscii then some (digitsVal rest)
    else none
  | [] => none

/-- The term `max((int(r['id'][1:]) ...), default=0)` over the store. -/
def maxRoomId (db : List Room) : Nat :=
  db.foldl (fun m r => match idSuffix r.id with | some n => max m n | none => m) 0

/-- The slot-filling check of `add_room`: the names of the falsy required
fields, in source order. -/
def missingFields (city area : Option String) (rent : Option Int)
    (gender_pref : Option String) (spots_available : Option Int)
    (description : Option String) : List String :=
  (if strFalsy city then ["city"] else []) ++
  (if strFalsy area then ["area"] else []) ++
  (if intFalsy rent then ["rent"] else []) ++
  (if strFalsy gender_pref then ["gender preference"] else []) ++
  (if intFalsy spots_available then ["spots available"] else []) ++
  (if strFalsy description then ["a description"] else [])

/-- The term `(gender_pref or "").strip().capitalize()`. -/
def genderNorm (gender_pref : Option String) : String :=
  capitalize (pyStrip (gender_pref.getD ""))

/-- The record `add_room` appends on success. -/
def newRoom (db : List Room) (today : PyDate) (key : String)
    (city area : Option String) (rent : Option Int) (gender_pref : Option String)
    (spots_available : Option Int) (description : Option String)
    (pincode : Option String) (amenities : Option (List String)) : Room :=
  { id := "R" ++ padNum 3 (maxRoomId db + 1)
    management_key := key
    location :=
      { city := pyStrip (city.getD "")
        area := pyStrip (area.getD "")
        pincode := pyStrip (pincode.getD "") }
    rent := rent.getD 0
    gender_pref := genderNorm gender_pref
    amenities := amenities.getD []
    description := pyStrip (description.getD "")
    photo_url := none
    date_posted := isoformat today
    is_active := true
    expires_at := isoformat (addDays today 30)
    spots_available := spots_available.getD 0 }

/-- The term `add_room` from `agent.py`.  `today` stands for `date.today()` and `key`
for the generated `uuid.uuid4()` string; both are inputs of the embedding. -/
def addRoom (db : List Room) (today : PyDate) (key : String)
    (city area : Option String) (rent : Option Int) (gender_pref : Option String)
    (spots_available : Option Int) (description : Option String)
    (pincode : Option String) (amenities : Option (List String)) :
    AddResult × List Room :=
  if missingFields city area rent gender_pref spots_available description ≠ [] then
    (.missing (missingFields city area rent gender_pref spots_available description), db)
  else if ¬(genderNorm gender_pref = "Male" ∨ genderNorm gender_pref = "Female" ∨
      genderNorm gender_pref = "Any") then
    (.invalidGender, db)
  else
    (.success ("R" ++ padNum 3 (maxRoomId db + 1)) key,
      db ++ [newRoom db today key city area rent gender_pref spots_available
        description pincode amenities])

/-! ### `delete_room` and `edit_room` -/

inductive MutResult
  | notFound
  | permissionDenied
  | deleted
  | noOp
  | edited (changes : List String)
deriving DecidableEq

/-- The term `delete_room` from `agent.py`: find the first listing whose id matches
case-insensitively, check the key, remove it. -/
def deleteRoom : List Room → String → String → MutResult × List Room
  | [], _, _ => (.notFound, [])
  | r :: rest, room_id, management_key =>
    if pyLower r.id = pyLower room_id then
      if r.management_key = management_key then (.deleted, rest)
      else (.permissionDenied, r :: rest)
    else
      let p := deleteRoom rest room_id management_key
      (p.1, r :: p.2)

/-- The four `if x is not None` partial-update steps of `edit_room`. -/
def applyEdits (r : Room) (rent : Option Int) (description : Option String)
    (spots_available : Option Int) (amenities : Option (List String)) :
    List String × Room :=
  let s1 := match rent with
    | some v => (["rent to ₹" ++ toString v], { r with rent := v })
    | none => (([] : List String), r)
  let s2 := match description with
    | some v => (s1.1 ++ ["description"], { s1.2 with description := v })
    | none => s1
  let s3 := match spots_available with
    | some v => (s2.1 ++ ["spots available to " ++ toString v],
        { s2.2 with spots_available := v })
    | none => s2
  match amenities with
  | some v => (s3.1 ++ ["amenities"], { s3.2 with amenities := v })
  | none => s3

/-- The term `edit_room` from `agent.py`. -/
def editRoom : List Room → String → String → Option Int → Option String →
    Option Int → Option (List String) → MutResult × List Room
  | [], _, _, _, _, _, _ => (.notFound, [])
  | r :: rest, room_id, management_key, rent, description, spots_available, amenities =>
    if pyLower r.id = pyLower room_id then
      if r.management_key = management_key then
        let p := applyEdits r rent description spots_available amenities
        if p.1 = [] then (.noOp, p.2 :: rest)
        else (.edited p.1, p.2 :: rest)
      else (.permissionDenied, r :: rest)
    else
      let p := editRoom rest room_id management_key rent description spots_available amenities
      (p.1, r :: p.2)

/-! ### `room_finder` -/

inductive FinderResult
  | invalidParam
  | ok (rooms : List Room)
deriving DecidableEq

/-- The sort key comparison: ascending by `(rent, date_posted)`, the ISO
date string compared lexicographically. -/
def keyLe (a b : Room) : Bool :=
  decide (a.rent < b.rent) ||
  (a.rent == b.rent && decide (a.date_posted ≤ b.date_posted))

/-- The conjunction of filter predicates applied to each listing in the
`room_finder` scan (a listing passes iff no `continue` fires). -/
def passesFilters (city_n area_n pincode_n : String) (max_rent : Option Int)
    (gender_n : Option String) (req_amenities : List String) (r : Room) : Bool :=
  r.is_active &&
  (city_n == "" || city_n == normalize_city (some r.location.city)) &&
  (area_n == "" || area_n == normalize_area (some r.location.area)) &&
  (pincode_n == "" || pincode_n == r.location.pincode) &&
  (match max_rent with
    | none => true
    | some m => decide (r.rent ≤ m)) &&
  (match gender_n with
    | none => true
    | some g =>
      if g ≠ "" then (r.gender_pref == "Any" || r.gender_pref == g) else true) &&
  (if req_amenities ≠ [] then
      req_amenities.all (fun a => (r.amenities.map normalize_amenity).contains a)
    else true)

/-- The term `city_n = normalize_city(city) if city else ""`. -/
def cityParam (city : Option String) : String :=
  if strFalsy city then "" else normalize_city city

/-- The term `area_n = normalize_area(area) if area else ""`. -/
def areaParam (area : Option String) : String :=
  if strFalsy area then "" else normalize_area area

/-- The term `pincode_n = (pincode or "").strip()`. -/
def pincodeParam (pincode : Option String) : String := pyStrip (pincode.getD "")

/-- The term `gender_n = (gender_pref or "").strip().capitalize() if gender_pref else None`. -/
def genderParam (gender_pref : Option String) : Option String :=
  if strFalsy gender_pref then none
  else some (capitalize (pyStrip (gender_pref.getD "")))

/-- The term `req_amenities = [normalize_amenity(a) for a in (amenities or [])
if a and normalize_amenity(a)]`. -/
def amenitiesParam (amenities : Option (List String)) : List String :=
  (amenities.getD []).filterMap fun a =>
    if a ≠ "" ∧ normalize_amenity a ≠ "" then some (normalize_amenity a) else none

/-- The term `gender_n and gender_n not in {"Male", "Female", "Any"}`. -/
def genderParamBad (gender_pref : Option String) : Bool :=
  match genderParam gender_pref with
  | some g => !(g == "") && !((["Male", "Female", "Any"] : List String).contains g)
  | none => false

/-- The term `room_finder` from `agent.py`, returning the result list (the emoji
rendering of the hit list is presentation, outside the verified core). -/
def roomFinder (db : List Room) (city area pincode : Option String)
    (max_rent : Option Int) (gender_pref : Option String)
    (amenities : Option (List String)) (limit : Nat) : FinderResult :=
  if genderParamBad gender_pref then
    .invalidParam
  else
    .ok (((db.filter (passesFilters (cityParam city) (areaParam area)
      (pincodeParam pincode) max_rent (genderParam gender_pref)
      (amenitiesParam amenities))).mergeSort keyLe).take limit)

/-! ### Lookup/authorization decomposition for `delete_room` / `edit_room` -/

theorem deleteRoom_decomp (pre post : List Room) (r : Room) (rid key : String)
    (hpre : ∀ r' ∈ pre, pyLower r'.id ≠ pyLower rid)
    (hr : pyLower r.id = pyLower rid) :
    deleteRoom (pre ++ r :: post) rid key =
      if r.management_key = key then (.deleted, pre ++ post)
      else (.permissionDenied, pre ++ r :: post) := by
  induction pre with
  | nil =>
    rw [List.nil_append, deleteRoom, if_pos hr]
    by_cases hk : r.management_key = key
    · rw [if_pos hk, if_pos hk, List.nil_append]
    · rw [if_neg hk, if_neg hk]
  | cons a t ih =>
    have ha : ¬(pyLower a.id = pyLower rid) := hpre a (List.mem_cons_self _ _)
    have ih' := ih (fun r' hr' => hpre r' (List.mem_cons_of_mem _ hr'))
    rw [List.cons_append, deleteRoom, if_neg ha]
    by_cases hk : r.management_key = key
    · rw [if_pos hk]
      rw [if_pos hk] at ih'
      simp only [List.cons_append, ih']
    · rw [if_neg hk]
      rw [if_neg hk] at ih'
      simp only [List.cons_append, ih']

theorem editRoom_decomp (pre post : List Room) (r : Room) (rid key : String)
    (rent : Option Int) (desc : Option String) (spots : Option Int)
    (amens : Option (List String))
    (hpre : ∀ r' ∈ pre, pyLower r'.id ≠ pyLower rid)
    (hr : pyLower r.id = pyLower rid) :
    editRoom (pre ++ r :: post) rid key rent desc spots amens =
      if r.management_key = key then
        (if (applyEdits r rent desc spots amens).1 = []
          then (.noOp, pre ++ (applyEdits r rent desc spots amens).2 :: post)
          else (.edited (applyEdits r rent desc spots amens).1,
            pre ++ (applyEdits r rent desc spots amens).2 :: post))
      else (.permissionDenied, pre ++ r :: post) := by
  induction pre with
  | nil =>
    rw [List.nil_append, editRoom, if_pos hr]
    by_cases hk : r.management_key = key
    · rw [if_pos hk, if_pos hk]
      by_cases hc : (applyEdits r rent desc spots amens).1 = []
      · rw [if_pos hc, if_pos hc, List.nil_append]
      · rw [if_neg hc, if_neg hc, List.nil_append]
    · rw [if_neg hk, if_neg hk]
  | cons a t ih =>
    have ha : ¬(pyLower a.id = pyLower rid) := hpre a (List.mem_cons_self _ _)
    have ih' := ih (fun r' hr' => hpre r' (List.mem_cons_of_mem _ hr'))
    rw [List.cons_append, editRoom, if_neg ha]
    by_cases hk : r.management_key = key
    · rw [if_pos hk]
      rw [if_pos hk] at ih'
      by_cases hc : (applyEdits r rent desc spots amens).1 = []
      · rw [if_pos hc]
        rw [if_pos hc] at ih'
        simp only [List.cons_append, ih']
      · rw [if_neg hc]
        rw [if_neg hc] at ih'
        simp only [List.cons_append, ih']
    · rw [if_neg hk]
      rw [if_neg hk] at ih'
      simp only [List.cons_append, ih']

theorem deleteRoom_notFound (db : List Room) (rid key : String) :
    ((deleteRoom db rid key).1 = .notFound ↔ ∀ r ∈ db, pyLower r.id ≠ pyLower rid) ∧
    ((deleteRoom db rid key).1 = .notFound → (deleteRoom db rid key).2 = db) := by
  induction db with
  | nil => exact ⟨by simp [deleteRoom], by simp [deleteRoom]⟩
  | cons a t ih =>
    by_cases ha : pyLower a.id = pyLower rid
    · rw [deleteRoom, if_pos ha]
      by_cases hk : a.management_key = key
      · rw [if_pos hk]
        refine ⟨iff_of_false (by simp) (fun hall => hall a (List.mem_cons_self _ _) ha), ?_⟩
        intro h; exact absurd h (by simp)
      · rw [if_neg hk]
        refine ⟨iff_of_false (by simp) (fun hall => hall a (List.mem_cons_self _ _) ha), ?_⟩
        intro h; exact absurd h (by simp)
    · rw [deleteRoom, if_neg ha]
      constructor
      · simp only []
        rw [ih.1]
        constructor
        · intro hall r hrm
          rcases List.mem_cons.mp hrm with h | h
          · subst h; exact ha
          · exact hall r h
        · intro hall r hrm
          exact hall r (List.mem_cons_of_mem _ hrm)
      · intro h
        have := ih.2 h
        simp only [this]

theorem editRoom_notFound (db : List Room) (rid key : String)
    (rent : Option Int) (desc : Option String) (spots : Option Int)
    (amens : Option (List String)) :
    ((editRoom db rid key rent desc spots amens).1 = .notFound ↔
      ∀ r ∈ db, pyLower r.id ≠ pyLower rid) ∧
    ((editRoom db rid key rent desc spots amens).1 = .notFound →
      (editRoom db rid key rent desc spots amens).2 = db) := by
  induction db with
  | nil => exact ⟨by simp [editRoom], by simp [editRoom]⟩
  | cons a t ih =>
    by_cases ha : pyLower a.id = pyLower rid
    · rw [editRoom, if_pos ha]
      by_cases hk : a.management_key = key
      · rw [if_pos hk]
        by_cases hc : (applyEdits a rent desc spots amens).1 = []
        · rw [if_pos hc]
          refine ⟨iff_of_false (by simp) (fun hall => hall a (List.mem_cons_self _ _) ha), ?_⟩
          intro h; exact absurd h (by simp)
        · rw [if_neg hc]
          refine ⟨iff_of_false (by simp) (fun hall => hall a (List.mem_cons_self _ _) ha), ?_⟩
          intro h; exact absurd h (by simp)
      · rw [if_neg hk]
        refine ⟨iff_of_false (by simp) (fun hall => hall a (List.mem_cons_self _ _) ha), ?_⟩
        intro h; exact absurd h (by simp)
    · rw [editRoom, if_neg ha]
      constructor
      · simp only []
        rw [ih.1]
        constructor
        · intro hall r hrm
          rcases List.mem_cons.mp hrm with h | h
          · subst h; exact ha
          · exact hall r h
        · intro hall r hrm
          exact hall r (List.mem_cons_of_mem _ hrm)
      · intro h
        have := ih.2 h
        simp only [this]

/-- In fields the partial update does not touch, `applyEdits` leaves the
record unchanged; touched fields take exactly the supplied value. -/
theorem applyEdits_fields (r : Room) (rent : Option Int) (desc : Option String)
    (spots : Option Int) (amens : Option (List String)) :
    (applyEdits r rent desc spots amens).2.id = r.id ∧
    (applyEdits r rent desc spots amens).2.management_key = r.management_key ∧
    (applyEdits r rent desc spots amens).2.location = r.location ∧
    (applyEdits r rent desc spots amens).2.gender_pref = r.gender_pref ∧
    (applyEdits r rent desc spots amens).2.photo_url = r.photo_url ∧
    (applyEdits r rent desc spots amens).2.date_posted = r.date_posted ∧
    (applyEdits r rent desc spots amens).2.is_active = r.is_active ∧
    (applyEdits r rent desc spots amens).2.expires_at = r.expires_at ∧
    (applyEdits r rent desc spots amens).2.rent = rent.getD r.rent ∧
    (applyEdits r rent desc spots amens).2.description = desc.getD r.description ∧
    (applyEdits r rent desc spots amens).2.spots_available = spots.getD r.spots_available ∧
    (applyEdits r rent desc spots amens).2.amenities = amens.getD r.amenities := by
  cases rent <;> cases desc <;> cases spots <;> cases amens <;>
    simp [applyEdits]

theorem applyEdits_none (r : Room) : applyEdits r none none none none = ([], r) := rfl

/-! ### Freshly generated ids parse back to `maxRoomId + 1` -/

theorem digitCh_toNat {d : Nat} (h : d < 10) : (digitCh d).toNat = 48 + d :=
  toNat_ofNat_valid (by omega)

theorem digitCh_digit {d : Nat} (h : d < 10) : digitAscii (digitCh d) = true := by
  have := digitCh_toNat h
  simp only [digitAscii, this, Bool.and_eq_true, decide_eq_true_eq]
  omega

theorem digitsVal_snoc (a : List Char) (c : Char) :
    digitsVal (a ++ [c]) = 10 * digitsVal a + (c.toNat - 48) := by
  simp [digitsVal, List.foldl_append]

theorem toDecimalAux_spec :
    ∀ fuel n, n < fuel →
      digitsVal (toDecimalAux fuel n) = n ∧ toDecimalAux fuel n ≠ [] ∧
      ∀ c ∈ toDecimalAux fuel n, digitAscii c = true := by
  intro fuel
  induction fuel with
  | zero => intro n h; omega
  | succ f ih =>
    intro n h
    by_cases h10 : n < 10
    · rw [toDecimalAux, if_pos h10]
      refine ⟨?_, by simp, ?_⟩
      · simp [digitsVal, digitCh_toNat h10]
      · intro c hc
        rw [List.mem_singleton.mp hc]
        exact digitCh_digit h10
    · rw [toDecimalAux, if_neg h10]
      have hdiv : n / 10 < f := by
        have h1 : n / 10 < n := Nat.div_lt_self (by omega) (by omega)
        omega
      obtain ⟨ih1, ih2, ih3⟩ := ih (n / 10) hdiv
      have hmod : n % 10 < 10 := Nat.mod_lt _ (by omega)
      refine ⟨?_, by simp, ?_⟩
      · rw [digitsVal_snoc, ih1, digitCh_toNat hmod]
        omega
      · intro c hc
        rcases List.mem_append.mp hc with hc1 | hc1
        · exact ih3 c hc1
        · rw [List.mem_singleton.mp hc1]
          exact digitCh_digit hmod

theorem toDecimal_spec (n : Nat) :
    digitsVal (toDecimal n) = n ∧ toDecimal n ≠ [] ∧
    ∀ c ∈ toDecimal n, digitAscii c = true :=
  toDecimalAux_spec (n + 1) n (Nat.lt_succ_self n)

theorem digitsVal_replicate_zero :
    ∀ (k : Nat) (l : List Char), digitsVal (List.replicate k '0' ++ l) = digitsVal l := by
  intro k
  induction k with
  | zero => intro l; rfl
  | succ m ih =>
    intro l
    rw [List.replicate_succ, List.cons_append]
    show digitsVal ('0' :: (List.replicate m '0' ++ l)) = digitsVal l
    rw [← ih l]
    rfl

/-- The generated id `R` + zero-padded suffix parses back to the suffix. -/
theorem idSuffix_generated (n : Nat) : idSuffix ("R" ++ padNum 3 n) = some n := by
  obtain ⟨hval, hne, hdig⟩ := toDecimal_spec n
  have hne2 : List.replicate (3 - (toDecimal n).length) '0' ++ toDecimal n ≠ [] := by
    simp [hne]
  have hall : (List.replicate (3 - (toDecimal n).length) '0' ++ toDecimal n).all
      digitAscii = true := by
    rw [List.all_eq_true]
    intro c hc
    rcases List.mem_append.mp hc with hc1 | hc1
    · rw [List.eq_of_mem_replicate hc1]; decide
    · exact hdig c hc1
  show (if ('R' : Char) = 'R' ∧
      List.replicate (3 - (toDecimal n).length) '0' ++ toDecimal n ≠ [] ∧
      (List.replicate (3 - (toDecimal n).length) '0' ++ toDecimal n).all digitAscii = true
    then some (digitsVal (List.replicate (3 - (toDecimal n).length) '0' ++ toDecimal n))
    else none) = some n
  rw [if_pos ⟨rfl, hne2, hall⟩, digitsVal_replicate_zero, hval]

theorem foldl_maxRoom_ge_init :
    ∀ (db : List Room) (i : Nat),
      i ≤ db.foldl (fun m r => match idSuffix r.id with
        | some n => max m n
        | none => m) i := by
  intro db
  induction db with
  | nil => intro i; exact le_refl i
  | cons a t ih =>
    intro i
    rw [List.foldl_cons]
    refine le_trans ?_ (ih _)
    cases idSuffix a.id with
    | none => exact le_refl i
    | some n => exact le_max_left i n

theorem maxRoomId_ge {db : List Room} {r : Room} {n : Nat}
    (hr : r ∈ db) (hn : idSuffix r.id = some n) : n ≤ maxRoomId db := by
  rw [maxRoomId]
  suffices h : ∀ (l : List Room) (i : Nat), r ∈ l →
      n ≤ l.foldl (fun m r => match idSuffix r.id with
        | some k => max m k
        | none => m) i from h db 0 hr
  intro l
  induction l with
  | nil => intro i hmem; exact absurd hmem (List.not_mem_nil r)
  | cons a t ih =>
    intro i hmem
    rcases List.mem_cons.mp hmem with h | h
    · subst h
      rw [List.foldl_cons, hn]
      exact le_trans (le_max_right i n) (foldl_maxRoom_ge_init t _)
    · rw [List.foldl_cons]
      exact ih _ h

/-- Unfolding `addRoom` on the success path. -/
theorem addRoom_success_id (db : List Room) (today : PyDate) (key : String)
    (city area : Option String) (rent : Option Int) (gender_pref : Option String)
    (spots_available : Option Int) (description : Option String)
    (pincode : Option String) (amenities : Option (List String))
    (pid sk : String) (db' : List Room)
    (h : addRoom db today key city area rent gender_pref spots_available
      description pincode amenities = (.success pid sk, db')) :
    pid = "R" ++ padNum 3 (maxRoomId db + 1) := by
  rw [addRoom] at h
  by_cases h1 : missingFields city area rent gender_pref spots_available description ≠ []
  · rw [if_pos h1] at h
    exact absurd (congrArg Prod.fst h) (by simp)
  · rw [if_neg h1] at h
    by_cases h2 : ¬(genderNorm gender_pref = "Male" ∨ genderNorm gender_pref = "Female" ∨
        genderNorm gender_pref = "Any")
    · rw [if_pos h2] at h
      exact absurd (congrArg Prod.fst h) (by simp)
    · rw [if_neg h2] at h
      have h3 := congrArg Prod.fst h
      simp only at h3
      injection h3 with h4 h5
      exact h4.symm

theorem missingFields_eq_nil {city area : Option String} {rent : Option Int}
    {gender_pref : Option String} {spots_available : Option Int}
    {description : Option String}
    (h : missingFields city area rent gender_pref spots_available description = []) :
    strFalsy city = false ∧ strFalsy area = false ∧ intFalsy rent = false ∧
    strFalsy gender_pref = false ∧ intFalsy spots_available = false ∧
    strFalsy description = false := by
  refine ⟨?_, ?_, ?_, ?_, ?_, ?_⟩ <;> by_contra hx <;>
    rw [Bool.not_eq_false] at hx <;> simp [missingFields, hx] at h

/-- The remaining components of the success path of `add_room`. -/
theorem addRoom_success_facts (db : List Room) (today : PyDate) (key : String)
    (city area : Option String) (rent : Option Int) (gender_pref : Option String)
    (spots_available : Option Int) (description : Option String)
    (pincode : Option String) (amenities : Option (List String))
    (pid sk : String) (db' : List Room)
    (h : addRoom db today key city area rent gender_pref spots_available
      description pincode amenities = (.success pid sk, db')) :
    sk = key ∧
    db' = db ++ [newRoom db today key city area rent gender_pref spots_available
      description pincode amenities] ∧
    missingFields city area rent gender_pref spots_available description = [] ∧
    (genderNorm gender_pref = "Male" ∨ genderNorm gender_pref = "Female" ∨
      genderNorm gender_pref = "Any") := by
  rw [addRoom] at h
  by_cases h1 : missingFields city area rent gender_pref spots_available description ≠ []
  · rw [if_pos h1] at h
    exact absurd (congrArg Prod.fst h) (by simp)
  · rw [if_neg h1] at h
    by_cases h2 : ¬(genderNorm gender_pref = "Male" ∨ genderNorm gender_pref = "Female" ∨
        genderNorm gender_pref = "Any")
    · rw [if_pos h2] at h
      exact absurd (congrArg Prod.fst h) (by simp)
    · rw [if_neg h2] at h
      rw [not_not] at h2
      rw [not_ne_iff] at h1
      have h3 := congrArg Prod.fst h
      have h4 := congrArg Prod.snd h
      simp only at h3 h4
      injection h3 with h5 h6
      exact ⟨h6.symm, h4.symm, h1, h2⟩

/-! ## Claim C1 -/

/-- Sample store for the C1 witness: one listing with numeric suffix 7. -/
def c1Room : Room :=
  { id := "R007", management_key := "key-c1"
    location := { city := "Bengaluru", area := "HSR", pincode := "560102" }
    rent := 12000, gender_pref := "Any", amenities := ["WiFi"], description := "d"
    photo_url := none, date_posted := "2025-08-01", is_active := true
    expires_at := "2025-08-31", spots_available := 1 }

def c1Db : List Room := [c1Room]

/-- C1 counterexample: public-id suffixes CAN be reused after a deletion.
Starting from the empty store, `add_room` assigns `R001`; after deleting
`R001`, the next `add_room` assigns `R001` again (suffix 1, not strictly
greater than the suffix of the listing created before it). -/
theorem C1_counterexample :
    (addRoom [] ⟨2025, 10, 12⟩ "key-1" (some "Bengaluru") (some "HSR")
      (some 10000) (some "Any") (some 1) (some "desc") none none).1 =
        .success "R001" "key-1" ∧
    (deleteRoom (addRoom [] ⟨2025, 10, 12⟩ "key-1" (some "Bengaluru") (some "HSR")
      (some 10000) (some "Any") (some 1) (some "desc") none none).2
      "R001" "key-1").1 = .deleted ∧
    (addRoom (deleteRoom (addRoom [] ⟨2025, 10, 12⟩ "key-1" (some "Bengaluru")
      (some "HSR") (some 10000) (some "Any") (some 1) (some "desc") none none).2
      "R001" "key-1").2 ⟨2025, 10, 12⟩ "key-2" (some "Bengaluru") (some "HSR")
      (some 10000) (some "Any") (some 1) (some "desc") none none).1 =
        .success "R001" "key-2" ∧
    idSuffix "R001" = some 1 := by decide

/-- C1 (amended): each successful `add_room` assigns the numeric suffix
`1 + max suffix currently in the store` (matching `R<digits>`, default 0),
which is strictly greater than the suffix of every listing currently stored;
a deleted suffix can be reused once the maximal listing is removed. -/
theorem C1_add_room_id_above_current_store
    (db : List Room) (today : PyDate) (key : String) (city area : Option String)
    (rent : Option Int) (gender_pref : Option String) (spots_available : Option Int)
    (description : Option String) (pincode : Option String)
    (amenities : Option (List String)) (pid sk : String) (db' : List Room)
    (h : addRoom db today key city area rent gender_pref spots_available
      description pincode amenities = (.success pid sk, db')) :
    idSuffix pid = some (maxRoomId db + 1) ∧
    ∀ r ∈ db, ∀ n, idSuffix r.id = some n → n < maxRoomId db + 1 := by
  have hpid := addRoom_success_id db today key city area rent gender_pref
    spots_available description pincode amenities pid sk db' h
  constructor
  · rw [hpid]
    exact idSuffix_generated _
  · intro r hr n hn
    have := maxRoomId_ge hr hn
    omega

/-- C1 witness: concrete instantiation of the amended theorem on a store
holding `R007`. -/
theorem C1_witness :
    idSuffix "R008" = some (maxRoomId c1Db + 1) ∧
    ∀ r ∈ c1Db, ∀ n, idSuffix r.id = some n → n < maxRoomId c1Db + 1 := by
  have happ : addRoom c1Db ⟨2025, 10, 12⟩ "k2" (some "Mumbai") (some "Andheri")
      (some 9000) (some "Male") (some 2) (some "dd") none none =
      (.success "R008" "k2",
        (addRoom c1Db ⟨2025, 10, 12⟩ "k2" (some "Mumbai") (some "Andheri")
          (some 9000) (some "Male") (some 2) (some "dd") none none).2) := by
    have h1 : (addRoom c1Db ⟨2025, 10, 12⟩ "k2" (some "Mumbai") (some "Andheri")
        (some 9000) (some "Male") (some 2) (some "dd") none none).1 =
        .success "R008" "k2" := by decide
    exact Prod.ext h1 rfl
  exact C1_add_room_id_above_current_store c1Db ⟨2025, 10, 12⟩ "k2" (some "Mumbai")
    (some "Andheri") (some 9000) (some "Male") (some 2) (some "dd") none none
    "R008" "k2" _ happ

/-! ## Claim C2 -/

/-- The term `missingFields` membership characterization: it names a field exactly
when that field is falsy. -/
theorem mem_missingFields (city area : Option String) (rent : Option Int)
    (gender_pref : Option String) (spots_available : Option Int)
    (description : Option String) (s : String) :
    s ∈ missingFields city area rent gender_pref spots_available description ↔
      ((s = "city" ∧ strFalsy city = true) ∨
       (s = "area" ∧ strFalsy area = true) ∨
       (s = "rent" ∧ intFalsy rent = true) ∨
       (s = "gender preference" ∧ strFalsy gender_pref = true) ∨
       (s = "spots available" ∧ intFalsy spots_available = true) ∨
       (s = "a description" ∧ strFalsy description = true)) := by
  rw [missingFields]
  split_ifs <;> simp_all

theorem missingFields_nil_of_flags {city area : Option String} {rent : Option Int}
    {gender_pref : Option String} {spots_available : Option Int}
    {description : Option String}
    (f1 : strFalsy city = false) (f2 : strFalsy area = false)
    (f3 : intFalsy rent = false) (f4 : strFalsy gender_pref = false)
    (f5 : intFalsy spots_available = false) (f6 : strFalsy description = false) :
    missingFields city area rent gender_pref spots_available description = [] := by
  simp [missingFields, f1, f2, f3, f4, f5, f6]

/-- C2 counterexample: with all six required fields supplied and
`rent = 0`, `add_room` aborts with a missing-fields response naming
`rent` — a supplied-as-zero integer is treated as absent. -/
theorem C2_counterexample :
    addRoom [] ⟨2025, 10, 12⟩ "key-c2" (some "Bengaluru") (some "HSR")
      (some 0) (some "Any") (some 1) (some "desc") none none =
      (.missing ["rent"], []) := by decide

/-- C2 (amended): `add_room` aborts with a structured missing-fields
response, naming exactly the falsy fields and performing no partial
creation, if and only if at least one of city, area, rent,
gender_preference, spots_available, description is falsy — absent, null,
empty, or a zero integer (`rent=0` / `spots_available=0` count as
missing under the Python truthiness check). -/
theorem C2_missing_fields_check (db : List Room) (today : PyDate) (key : String)
    (city area : Option String) (rent : Option Int) (gender_pref : Option String)
    (spots_available : Option Int) (description : Option String)
    (pincode : Option String) (amenities : Option (List String)) :
    ((∃ fs, (addRoom db today key city area rent gender_pref spots_available
        description pincode amenities).1 = .missing fs) ↔
      (strFalsy city = true ∨ strFalsy area = true ∨ intFalsy rent = true ∨
       strFalsy gender_pref = true ∨ intFalsy spots_available = true ∨
       strFalsy description = true)) ∧
    (∀ fs, (addRoom db today key city area rent gender_pref spots_available
        description pincode amenities).1 = .missing fs →
      ((addRoom db today key city area rent gender_pref spots_available
          description pincode amenities).2 = db ∧
        ∀ s, s ∈ fs ↔
          ((s = "city" ∧ strFalsy city = true) ∨
           (s = "area" ∧ strFalsy area = true) ∨
           (s = "rent" ∧ intFalsy rent = true) ∨
           (s = "gender preference" ∧ strFalsy gender_pref = true) ∨
           (s = "spots available" ∧ intFalsy spots_available = true) ∨
           (s = "a description" ∧ strFalsy description = true)))) := by
  by_cases hms : missingFields city area rent gender_pref spots_available description = []
  · obtain ⟨f1, f2, f3, f4, f5, f6⟩ := missingFields_eq_nil hms
    have hnm : ∀ fs, (addRoom db today key city area rent gender_pref spots_available
        description pincode amenities).1 ≠ .missing fs := by
      intro fs
      rw [addRoom, if_neg (not_ne_iff.mpr hms)]
      by_cases h2 : ¬(genderNorm gender_pref = "Male" ∨ genderNorm gender_pref = "Female" ∨
          genderNorm gender_pref = "Any")
      · rw [if_pos h2]; simp
      · rw [if_neg h2]; simp
    constructor
    · constructor
      · intro ⟨fs, hfs⟩; exact absurd hfs (hnm fs)
      · intro hor
        rcases hor with h | h | h | h | h | h <;> simp_all
    · intro fs hfs; exact absurd hfs (hnm fs)
  · have haddr : addRoom db today key city area rent gender_pref spots_available
        description pincode amenities =
        (.missing (missingFields city area rent gender_pref spots_available description), db) := by
      rw [addRoom, if_pos hms]
    constructor
    · constructor
      · intro _
        by_contra hall
        push_neg at hall
        obtain ⟨g1, g2, g3, g4, g5, g6⟩ := hall
        exact hms (missingFields_nil_of_flags (Bool.eq_false_iff.mpr g1)
          (Bool.eq_false_iff.mpr g2) (Bool.eq_false_iff.mpr g3)
          (Bool.eq_false_iff.mpr g4) (Bool.eq_false_iff.mpr g5)
          (Bool.eq_false_iff.mpr g6))
      · intro _
        exact ⟨missingFields city area rent gender_pref spots_available description,
          by rw [haddr]⟩
    · intro fs hfs
      rw [haddr] at hfs ⊢
      simp only at hfs
      injection hfs with hfs2
      refine ⟨rfl, ?_⟩
      intro s
      rw [← hfs2]
      exact mem_missingFields city area rent gender_pref spots_available description s

/-- C2 witness: the amended theorem instantiated where `rent` is supplied
as `0` — `add_room` aborts naming exactly `rent` and the store is unchanged. -/
theorem C2_witness :
    (addRoom [] ⟨2025, 10, 12⟩ "key-w2" (some "Bengaluru") (some "HSR") (some 0)
      (some "Any") (some 1) (some "desc") none none).2 = [] ∧
    ∀ s, s ∈ (["rent"] : List String) ↔
      ((s = "city" ∧ strFalsy (some "Bengaluru") = true) ∨
       (s = "area" ∧ strFalsy (some "HSR") = true) ∨
       (s = "rent" ∧ intFalsy (some 0) = true) ∨
       (s = "gender preference" ∧ strFalsy (some "Any") = true) ∨
       (s = "spots available" ∧ intFalsy (some 1) = true) ∨
       (s = "a description" ∧ strFalsy (some "desc") = true)) := by
  exact (C2_missing_fields_check [] ⟨2025, 10, 12⟩ "key-w2" (some "Bengaluru")
    (some "HSR") (some 0) (some "Any") (some 1) (some "desc") none none).2
    ["rent"] (by decide)

/-! ## Claim C9 -/

/-- Every record in the store after `edit_room` is either an original record
or the `applyEdits` image of an original record. -/
theorem editRoom_snd_mem {db : List Room} {rid key : String} {re : Option Int}
    {de : Option String} {sp : Option Int} {am : Option (List String)} {r' : Room}
    (h : r' ∈ (editRoom db rid key re de sp am).2) :
    r' ∈ db ∨ ∃ r ∈ db, r' = (applyEdits r re de sp am).2 := by
  induction db with
  | nil => simp [editRoom] at h
  | cons a t ih =>
    by_cases ha : pyLower a.id = pyLower rid
    · rw [editRoom, if_pos ha] at h
      by_cases hk : a.management_key = key
      · rw [if_pos hk] at h
        by_cases hc : (applyEdits a re de sp am).1 = []
        · rw [if_pos hc] at h
          rcases List.mem_cons.mp h with h1 | h1
          · exact Or.inr ⟨a, List.mem_cons_self _ _, h1⟩
          · exact Or.inl (List.mem_cons_of_mem _ h1)
        · rw [if_neg hc] at h
          rcases List.mem_cons.mp h with h1 | h1
          · exact Or.inr ⟨a, List.mem_cons_self _ _, h1⟩
          · exact Or.inl (List.mem_cons_of_mem _ h1)
      · rw [if_neg hk] at h
        exact Or.inl h
    · rw [editRoom, if_neg ha] at h
      rcases List.mem_cons.mp h with h1 | h1
      · exact Or.inl (h1 ▸ List.mem_cons_self _ _)
      · rcases ih h1 with h2 | ⟨r, hr, hr2⟩
        · exact Or.inl (List.mem_cons_of_mem _ h2)
        · exact Or.inr ⟨r, List.mem_cons_of_mem _ hr, hr2⟩

/-- The term `delete_room` never introduces records. -/
theorem deleteRoom_snd_subset {db : List Room} {rid key : String} {r' : Room}
    (h : r' ∈ (deleteRoom db rid key).2) : r' ∈ db := by
  induction db with
  | nil => simp [deleteRoom] at h
  | cons a t ih =>
    by_cases ha : pyLower a.id = pyLower rid
    · rw [deleteRoom, if_pos ha] at h
      by_cases hk : a.management_key = key
      · rw [if_pos hk] at h
        exact List.mem_cons_of_mem _ h
      · rw [if_neg hk] at h
        exact h
    · rw [deleteRoom, if_neg ha] at h
      rcases List.mem_cons.mp h with h1 | h1
      · exact h1 ▸ List.mem_cons_self _ _
      · exact List.mem_cons_of_mem _ (ih h1)

/-- C9 counterexample: `add_room` accepts a negative rent (`-5` is truthy
in Python), so the claimed invariant `rent >= 1` fails on the appended
record. -/
theorem C9_counterexample :
    (addRoom [] ⟨2025, 10, 12⟩ "key-c9" (some "Bengaluru") (some "HSR")
      (some (-5)) (some "Any") (some 1) (some "desc") none none).1 =
        .success "R001" "key-c9" ∧
    ((addRoom [] ⟨2025, 10, 12⟩ "key-c9" (some "Bengaluru") (some "HSR")
      (some (-5)) (some "Any") (some 1) (some "desc") none none).2.map Room.rent)
      = [-5] := by decide

/-- C9 (amended): every listing appended by a successful `add_room` has
`gender_pref ∈ {Male, Female, Any}`, nonzero `rent` and `spots_available`
(negative values pass the falsy check, so only zero is excluded),
`is_active = true`, no `photo_url`, and `expires_at = date_posted + 30`
days; `edit_room` preserves `gender_pref`, `is_active`, `photo_url`,
`date_posted`, `expires_at` and any of `rent`/`spots_available` it does
not overwrite, and `delete_room` only removes records. -/
theorem C9_add_room_record_invariants (db : List Room) (today : PyDate) (key : String)
    (city area : Option String) (rent : Option Int) (gender_pref : Option String)
    (spots_available : Option Int) (description : Option String)
    (pincode : Option String) (amenities : Option (List String))
    (pid sk : String) (db' : List Room)
    (h : addRoom db today key city area rent gender_pref spots_available
      description pincode amenities = (.success pid sk, db')) :
    (∃ room : Room, db' = db ++ [room] ∧
      (room.gender_pref = "Male" ∨ room.gender_pref = "Female" ∨
        room.gender_pref = "Any") ∧
      room.rent ≠ 0 ∧ room.spots_available ≠ 0 ∧ room.is_active = true ∧
      room.photo_url = none ∧ room.date_posted = isoformat today ∧
      room.expires_at = isoformat (addDays today 30)) ∧
    (∀ (db2 : List Room) (rid k2 : String) (re : Option Int) (de : Option String)
        (sp : Option Int) (am : Option (List String)),
      ∀ r' ∈ (editRoom db2 rid k2 re de sp am).2,
        ∃ r ∈ db2, r'.gender_pref = r.gender_pref ∧ r'.is_active = r.is_active ∧
          r'.photo_url = r.photo_url ∧ r'.date_posted = r.date_posted ∧
          r'.expires_at = r.expires_at ∧
          (r'.rent = r.rent ∨ re = some r'.rent) ∧
          (r'.spots_available = r.spots_available ∨ sp = some r'.spots_available)) ∧
    (∀ (db2 : List Room) (rid k2 : String),
      ∀ r' ∈ (deleteRoom db2 rid k2).2, r' ∈ db2) := by
  obtain ⟨hsk, hdb, hms, hg⟩ := addRoom_success_facts db today key city area rent
    gender_pref spots_available description pincode amenities pid sk db' h
  obtain ⟨f1, f2, f3, f4, f5, f6⟩ := missingFields_eq_nil hms
  refine ⟨?_, ?_, ?_⟩
  · refine ⟨newRoom db today key city area rent gender_pref spots_available
      description pincode amenities, hdb, ?_, ?_, ?_, rfl, rfl, rfl, rfl⟩
    · exact hg
    · cases rent with
      | none => exact absurd f3 (by simp [intFalsy])
      | some v =>
        simp only [intFalsy, beq_eq_false_iff_ne, ne_eq] at f3
        simpa [newRoom] using f3
    · cases spots_available with
      | none => exact absurd f5 (by simp [intFalsy])
      | some v =>
        simp only [intFalsy, beq_eq_false_iff_ne, ne_eq] at f5
        simpa [newRoom] using f5
  · intro db2 rid k2 re de sp am r' hr'
    rcases editRoom_snd_mem hr' with hmem | ⟨r, hr, hr2⟩
    · exact ⟨r', hmem, rfl, rfl, rfl, rfl, rfl, Or.inl rfl, Or.inl rfl⟩
    · obtain ⟨e1, e2, e3, e4, e5, e6, e7, e8, e9, e10, e11, e12⟩ :=
        applyEdits_fields r re de sp am
      subst hr2
      refine ⟨r, hr, e4, e7, e5, e6, e8, ?_, ?_⟩
      · cases re with
        | none => exact Or.inl (by simpa using e9)
        | some v => exact Or.inr (by simp_all)
      · cases sp with
        | none => exact Or.inl (by simpa using e11)
        | some v => exact Or.inr (by simp_all)
  · intro db2 rid k2 r' hr'
    exact deleteRoom_snd_subset hr'

/-- C9 witness: the amended theorem instantiated on a concrete successful
creation. -/
theorem C9_witness :
    (∃ room : Room,
      (addRoom [] ⟨2025, 10, 12⟩ "key-w9" (some "Bengaluru") (some "HSR")
        (some 15000) (some "female") (some 2) (some "nice room") none
        (some ["WiFi"])).2 = [] ++ [room] ∧
      (room.gender_pref = "Male" ∨ room.gender_pref = "Female" ∨
        room.gender_pref = "Any") ∧
      room.rent ≠ 0 ∧ room.spots_available ≠ 0 ∧ room.is_active = true ∧
      room.photo_url = none ∧ room.date_posted = isoformat ⟨2025, 10, 12⟩ ∧
      room.expires_at = isoformat (addDays ⟨2025, 10, 12⟩ 30)) ∧
    (∀ (db2 : List Room) (rid k2 : String) (re : Option Int) (de : Option String)
        (sp : Option Int) (am : Option (List String)),
      ∀ r' ∈ (editRoom db2 rid k2 re de sp am).2,
        ∃ r ∈ db2, r'.gender_pref = r.gender_pref ∧ r'.is_active = r.is_active ∧
          r'.photo_url = r.photo_url ∧ r'.date_posted = r.date_posted ∧
          r'.expires_at = r.expires_at ∧
          (r'.rent = r.rent ∨ re = some r'.rent) ∧
          (r'.spots_available = r.spots_available ∨ sp = some r'.spots_available)) ∧
    (∀ (db2 : List Room) (rid k2 : String),
      ∀ r' ∈ (deleteRoom db2 rid k2).2, r' ∈ db2) := by
  have happ : addRoom [] ⟨2025, 10, 12⟩ "key-w9" (some "Bengaluru") (some "HSR")
      (some 15000) (some "female") (some 2) (some "nice room") none
      (some ["WiFi"]) =
      (.success "R001" "key-w9",
        (addRoom [] ⟨2025, 10, 12⟩ "key-w9" (some "Bengaluru") (some "HSR")
          (some 15000) (some "female") (some 2) (some "nice room") none
          (some ["WiFi"])).2) := by
    have h1 : (addRoom [] ⟨2025, 10, 12⟩ "key-w9" (some "Bengaluru") (some "HSR")
        (some 15000) (some "female") (some 2) (some "nice room") none
        (some ["WiFi"])).1 = .success "R001" "key-w9" := by decide
    exact Prod.ext h1 rfl
  exact C9_add_room_record_invariants [] ⟨2025, 10, 12⟩ "key-w9" (some "Bengaluru")
    (some "HSR") (some 15000) (some "female") (some 2) (some "nice room") none
    (some ["WiFi"]) "R001" "key-w9" _ happ

/-! ## Claim C3 -/

def c3Room : Room :=
  { id := "R010", management_key := "key-c3"
    location := { city := "Bengaluru", area := "Koramangala", pincode := "560034" }
    rent := 21000, gender_pref := "Female", amenities := ["WiFi", "AC"]
    description := "1BHK", photo_url := none, date_posted := "2025-08-03"
    is_active := true, expires_at := "2025-09-02", spots_available := 2 }

/-- C3: on the first case-insensitively matched listing with the correct
key, `edit_room` applies a supplied `rent = 0`, `spots_available = 0` and
`amenities = []` to the stored record (supplied-as-falsy is not treated as
absent), and records each of them as changed. -/
theorem C3_edit_applies_zero_values (pre post : List Room) (r : Room)
    (rid key : String)
    (hpre : ∀ r' ∈ pre, pyLower r'.id ≠ pyLower rid)
    (hr : pyLower r.id = pyLower rid)
    (hkey : r.management_key = key) :
    editRoom (pre ++ r :: post) rid key (some 0) none (some 0) (some []) =
      (.edited ["rent to ₹0", "spots available to 0", "amenities"],
        pre ++ { r with rent := 0, spots_available := 0, amenities := [] } :: post) := by
  rw [editRoom_decomp pre post r rid key (some 0) none (some 0) (some []) hpre hr,
    if_pos hkey]
  have happ : applyEdits r (some 0) none (some 0) (some []) =
      (["rent to ₹0", "spots available to 0", "amenities"],
        { r with rent := 0, spots_available := 0, amenities := [] }) := by
    simp only [applyEdits]
    refine Prod.ext ?_ rfl
    show ["rent to ₹" ++ toString (0 : Int), "spots available to " ++ toString (0 : Int),
      "amenities"] = ["rent to ₹0", "spots available to 0", "amenities"]
    rfl
  rw [happ]
  simp

/-- C3 witness: the theorem instantiated on a one-listing store. -/
theorem C3_witness :
    editRoom [c3Room] "r010" "key-c3" (some 0) none (some 0) (some []) =
      (.edited ["rent to ₹0", "spots available to 0", "amenities"],
        [{ c3Room with rent := 0, spots_available := 0, amenities := [] }]) :=
  C3_edit_applies_zero_values [] [] c3Room "r010" "key-c3"
    (by simp) (by decide) rfl

/-! ## Claim C4 -/

def c4Room : Room :=
  { id := "R011", management_key := "key-c4"
    location := { city := "Mumbai", area := "Andheri", pincode := "400053" }
    rent := 30000, gender_pref := "Any", amenities := []
    description := "studio", photo_url := none, date_posted := "2025-08-04"
    is_active := true, expires_at := "2025-09-03", spots_available := 1 }

/-- C4: `edit_room` with zero supplied optional fields on a matched,
authorized listing returns the no-op response and returns the store
unchanged (the same list, hence the same record). -/
theorem C4_edit_noop (db pre post : List Room) (r : Room) (rid key : String)
    (hdb : db = pre ++ r :: post)
    (hpre : ∀ r' ∈ pre, pyLower r'.id ≠ pyLower rid)
    (hr : pyLower r.id = pyLower rid)
    (hkey : r.management_key = key) :
    editRoom db rid key none none none none = (.noOp, db) := by
  subst hdb
  rw [editRoom_decomp pre post r rid key none none none none hpre hr, if_pos hkey,
    applyEdits_none]
  simp

/-- C4 witness: the theorem instantiated on a two-listing store. -/
theorem C4_witness :
    editRoom [c3Room, c4Room] "R011" "key-c4" none none none none =
      (.noOp, [c3Room, c4Room]) :=
  C4_edit_noop [c3Room, c4Room] [c3Room] [] c4Room "R011" "key-c4" rfl
    (by decide) (by decide) rfl

/-! ## Claim C6 -/

def c6Room : Room :=
  { id := "R020", management_key := "topsecret"
    location := { city := "Delhi", area := "Saket", pincode := "110017" }
    rent := 18000, gender_pref := "Male", amenities := ["WiFi"]
    description := "pg", photo_url := none, date_posted := "2025-08-05"
    is_active := true, expires_at := "2025-09-04", spots_available := 3 }

/-- C6: `edit_room` and `delete_room` look up by case-insensitive id match
and return NotFound exactly when no listing matches; when the first match
exists they return PermissionDenied exactly when the supplied key is not a
verbatim, case-sensitive match of the stored key; in both failure cases the
store is returned unchanged. -/
theorem C6_lookup_and_auth (db : List Room) (rid key : String) (rent : Option Int)
    (desc : Option String) (spots : Option Int) (amens : Option (List String)) :
    ((deleteRoom db rid key).1 = .notFound ↔ ∀ r ∈ db, pyLower r.id ≠ pyLower rid) ∧
    ((editRoom db rid key rent desc spots amens).1 = .notFound ↔
      ∀ r ∈ db, pyLower r.id ≠ pyLower rid) ∧
    ((deleteRoom db rid key).1 = .notFound → (deleteRoom db rid key).2 = db) ∧
    ((editRoom db rid key rent desc spots amens).1 = .notFound →
      (editRoom db rid key rent desc spots amens).2 = db) ∧
    (∀ pre r post, db = pre ++ r :: post →
      (∀ r' ∈ pre, pyLower r'.id ≠ pyLower rid) → pyLower r.id = pyLower rid →
      (((deleteRoom db rid key).1 = .permissionDenied ↔ r.management_key ≠ key) ∧
       ((editRoom db rid key rent desc spots amens).1 = .permissionDenied ↔
         r.management_key ≠ key) ∧
       (r.management_key ≠ key →
         (deleteRoom db rid key).2 = db ∧
         (editRoom db rid key rent desc spots amens).2 = db))) := by
  refine ⟨(deleteRoom_notFound db rid key).1, (editRoom_notFound db rid key rent desc spots amens).1,
    (deleteRoom_notFound db rid key).2, (editRoom_notFound db rid key rent desc spots amens).2, ?_⟩
  intro pre r post hdb hpre hr
  subst hdb
  rw [deleteRoom_decomp pre post r rid key hpre hr,
    editRoom_decomp pre post r rid key rent desc spots amens hpre hr]
  by_cases hkey : r.management_key = key
  · rw [if_pos hkey, if_pos hkey]
    refine ⟨iff_of_false (by simp) (by simp [hkey]), ?_, ?_⟩
    · by_cases hc : (applyEdits r rent desc spots amens).1 = []
      · rw [if_pos hc]
        exact iff_of_false (by simp) (by simp [hkey])
      · rw [if_neg hc]
        exact iff_of_false (by simp) (by simp [hkey])
    · intro hk; exact absurd hkey hk
  · rw [if_neg hkey, if_neg hkey]
    exact ⟨iff_of_true rfl hkey, iff_of_true rfl hkey, fun _ => ⟨rfl, rfl⟩⟩

/-- C6 witness: a near-miss key differing only in capitalization is
rejected with PermissionDenied and the store is unchanged. -/
theorem C6_witness :
    (deleteRoom [c6Room] "r020" "Topsecret").1 = .permissionDenied ∧
    (deleteRoom [c6Room] "r020" "Topsecret").2 = [c6Room] ∧
    (editRoom [c6Room] "r020" "Topsecret" (some 1) none none none).1 =
      .permissionDenied := by
  have h := (C6_lookup_and_auth [c6Room] "r020" "Topsecret" (some 1) none none
    none).2.2.2.2 [] c6Room [] rfl (by simp) (by decide)
  exact ⟨h.1.mpr (by decide), (h.2.2 (by decide)).1, h.2.1.mpr (by decide)⟩

/-! ## Claim C10 -/

def c10Room : Room :=
  { id := "R030", management_key := "key-c10"
    location := { city := "Pune", area := "Baner", pincode := "411045" }
    rent := 14000, gender_pref := "Any", amenities := ["Parking"]
    description := "2BHK", photo_url := none, date_posted := "2025-08-06"
    is_active := true, expires_at := "2025-09-05", spots_available := 2 }

def c10Other : Room :=
  { id := "R031", management_key := "key-c10b"
    location := { city := "Pune", area := "Aundh", pincode := "411007" }
    rent := 15000, gender_pref := "Any", amenities := []
    description := "other", photo_url := none, date_posted := "2025-08-07"
    is_active := true, expires_at := "2025-09-06", spots_available := 1 }

/-- C10: a successful `edit_room` rewrites only the single matched listing,
and on it only the four editable fields, leaving id, management_key,
location, gender_pref, date_posted, expires_at, is_active and photo_url
unchanged and every other listing in place; a successful `delete_room`
removes exactly the matched listing. -/
theorem C10_mutation_frame (pre post : List Room) (r : Room) (rid key : String)
    (rent : Option Int) (desc : Option String) (spots : Option Int)
    (amens : Option (List String))
    (hpre : ∀ r' ∈ pre, pyLower r'.id ≠ pyLower rid)
    (hr : pyLower r.id = pyLower rid)
    (hkey : r.management_key = key) :
    deleteRoom (pre ++ r :: post) rid key = (.deleted, pre ++ post) ∧
    (editRoom (pre ++ r :: post) rid key rent desc spots amens).2 =
      pre ++ (applyEdits r rent desc spots amens).2 :: post ∧
    (applyEdits r rent desc spots amens).2.id = r.id ∧
    (applyEdits r rent desc spots amens).2.management_key = r.management_key ∧
    (applyEdits r rent desc spots amens).2.location = r.location ∧
    (applyEdits r rent desc spots amens).2.gender_pref = r.gender_pref ∧
    (applyEdits r rent desc spots amens).2.photo_url = r.photo_url ∧
    (applyEdits r rent desc spots amens).2.date_posted = r.date_posted ∧
    (applyEdits r rent desc spots amens).2.is_active = r.is_active ∧
    (applyEdits r rent desc spots amens).2.expires_at = r.expires_at ∧
    (applyEdits r rent desc spots amens).2.rent = rent.getD r.rent ∧
    (applyEdits r rent desc spots amens).2.description = desc.getD r.description ∧
    (applyEdits r rent desc spots amens).2.spots_available =
      spots.getD r.spots_available ∧
    (applyEdits r rent desc spots amens).2.amenities = amens.getD r.amenities := by
  obtain ⟨e1, e2, e3, e4, e5, e6, e7, e8, e9, e10, e11, e12⟩ :=
    applyEdits_fields r rent desc spots amens
  refine ⟨?_, ?_, e1, e2, e3, e4, e5, e6, e7, e8, e9, e10, e11, e12⟩
  · rw [deleteRoom_decomp pre post r rid key hpre hr, if_pos hkey]
  · rw [editRoom_decomp pre post r rid key rent desc spots amens hpre hr, if_pos hkey]
    by_cases hc : (applyEdits r rent desc spots amens).1 = []
    · rw [if_pos hc]
    · rw [if_neg hc]

/-- C10 witness: the frame theorem instantiated on a two-listing store with
a rent-only edit. -/
theorem C10_witness :
    deleteRoom [c10Other, c10Room] "R030" "key-c10" =
      (.deleted, [c10Other]) ∧
    (editRoom [c10Other, c10Room] "R030" "key-c10" (some 999) none none none).2 =
      [c10Other] ++ (applyEdits c10Room (some 999) none none none).2 :: [] ∧
    (applyEdits c10Room (some 999) none none none).2.id = c10Room.id ∧
    (applyEdits c10Room (some 999) none none none).2.management_key =
      c10Room.management_key ∧
    (applyEdits c10Room (some 999) none none none).2.location = c10Room.location ∧
    (applyEdits c10Room (some 999) none none none).2.gender_pref =
      c10Room.gender_pref ∧
    (applyEdits c10Room (some 999) none none none).2.photo_url = c10Room.photo_url ∧
    (applyEdits c10Room (some 999) none none none).2.date_posted =
      c10Room.date_posted ∧
    (applyEdits c10Room (some 999) none none none).2.is_active = c10Room.is_active ∧
    (applyEdits c10Room (some 999) none none none).2.expires_at =
      c10Room.expires_at ∧
    (applyEdits c10Room (some 999) none none none).2.rent =
      (some (999 : Int)).getD c10Room.rent ∧
    (applyEdits c10Room (some 999) none none none).2.description =
      (none : Option String).getD c10Room.description ∧
    (applyEdits c10Room (some 999) none none none).2.spots_available =
      (none : Option Int).getD c10Room.spots_available ∧
    (applyEdits c10Room (some 999) none none none).2.amenities =
      (none : Option (List String)).getD c10Room.amenities := by
  have h := C10_mutation_frame [c10Other] [] c10Room "R030" "key-c10"
    (some 999) none none none (by decide) (by decide) rfl
  exact h

/-! ## Claim C5 -/

/-- C5: normalization is idempotent for city, area and amenity kinds; case,
whitespace and punctuation variants of a word normalize identically; the
empty and whitespace-only strings normalize to the empty string; the
function is total.  The city/area synonym tables are modelled from the spec
(see `CITY_SYNONYMS`). -/
theorem C5_normalization_idempotent :
    (∀ x : String,
      normalize_city (some (normalize_city (some x))) = normalize_city (some x)) ∧
    (∀ x : String,
      normalize_area (some (normalize_area (some x))) = normalize_area (some x)) ∧
    (∀ x : String, normalize_amenity (normalize_amenity x) = normalize_amenity x) ∧
    (normalize_city (some "Bengaluru") = normalize_city (some "bengaluru ") ∧
     normalize_city (some "bengaluru ") = normalize_city (some "BENGALURU!") ∧
     normalize_city (some "Bengaluru") = "bengaluru") ∧
    cleanupBasic "" = "" ∧
    (∀ s : String, (∀ c ∈ s.toList, pySpace c = true) → cleanupBasic s = "") := by
  refine ⟨normalize_city_idem, normalize_area_idem, ?_, ⟨by decide, by decide, by decide⟩,
    rfl, ?_⟩
  · intro x
    exact cleanupBasic_idem x
  · intro s h
    exact cleanupBasic_all_space h

/-- C5 witness: the idempotence and whitespace parts instantiated. -/
theorem C5_witness :
    cleanupBasic " \t " = "" ∧
    normalize_city (some (normalize_city (some "BLR?"))) =
      normalize_city (some "BLR?") :=
  ⟨C5_normalization_idempotent.2.2.2.2.2 " \t " (by decide),
   C5_normalization_idempotent.1 "BLR?"⟩

/-! ## Claim C7 -/

theorem keyLe_trans (a b c : Room) (hab : keyLe a b = true) (hbc : keyLe b c = true) :
    keyLe a c = true := by
  simp only [keyLe, Bool.or_eq_true, Bool.and_eq_true, decide_eq_true_eq,
    beq_iff_eq] at *
  rcases hab with h1 | ⟨h1, h2⟩ <;> rcases hbc with h3 | ⟨h3, h4⟩
  · exact Or.inl (lt_trans h1 h3)
  · exact Or.inl (h3 ▸ h1)
  · exact Or.inl (h1 ▸ h3)
  · exact Or.inr ⟨h1.trans h3, le_trans h2 h4⟩

theorem keyLe_total (a b : Room) : (keyLe a b || keyLe b a) = true := by
  simp only [keyLe, Bool.or_eq_true, Bool.and_eq_true, decide_eq_true_eq,
    beq_iff_eq]
  rcases lt_trichotomy a.rent b.rent with h | h | h
  · exact Or.inl (Or.inl h)
  · rcases le_total a.date_posted b.date_posted with hd | hd
    · exact Or.inl (Or.inr ⟨h, hd⟩)
    · exact Or.inr (Or.inr ⟨h.symm, hd⟩)
  · exact Or.inr (Or.inl h)

def c7Room : Room :=
  { id := "R050", management_key := "key-c7"
    location := { city := "Bengaluru", area := "Marathahalli", pincode := "560037" }
    rent := 10500, gender_pref := "Any", amenities := ["WiFi", "Geyser"]
    description := "Spacious", photo_url := none, date_posted := "2025-08-01"
    is_active := true, expires_at := "2025-08-31", spots_available := 1 }

/-- C7: with a valid gender parameter, `room_finder` returns the active
listings satisfying all supplied filters, sorted ascending by
`(rent, date_posted)` (rent primary, ISO date string lexicographic
tie-break), truncated to at most `limit`; an empty match set yields the
empty sequence, not an error. -/
theorem C7_finder_filter_sort_truncate (db : List Room)
    (city area pincode : Option String) (max_rent : Option Int)
    (gender_pref : Option String) (amenities : Option (List String)) (limit : Nat)
    (hg : genderParamBad gender_pref = false) :
    ∃ full : List Room,
      roomFinder db city area pincode max_rent gender_pref amenities limit =
        .ok (full.take limit) ∧
      (full.take limit).length ≤ limit ∧
      full.Perm (db.filter (passesFilters (cityParam city) (areaParam area)
        (pincodeParam pincode) max_rent (genderParam gender_pref)
        (amenitiesParam amenities))) ∧
      full.Pairwise (fun a b => keyLe a b = true) ∧
      (full.take limit).Pairwise (fun a b => keyLe a b = true) ∧
      (∀ r ∈ full, r ∈ db ∧ passesFilters (cityParam city) (areaParam area)
        (pincodeParam pincode) max_rent (genderParam gender_pref)
        (amenitiesParam amenities) r = true) ∧
      ((∀ r ∈ db, passesFilters (cityParam city) (areaParam area)
          (pincodeParam pincode) max_rent (genderParam gender_pref)
          (amenitiesParam amenities) r = false) →
        roomFinder db city area pincode max_rent gender_pref amenities limit =
          .ok []) := by
  refine ⟨(db.filter (passesFilters (cityParam city) (areaParam area)
    (pincodeParam pincode) max_rent (genderParam gender_pref)
    (amenitiesParam amenities))).mergeSort keyLe, ?_, ?_, ?_, ?_, ?_, ?_, ?_⟩
  · rw [roomFinder, if_neg (by simp [hg])]
  · exact List.length_take_le _ _
  · exact List.mergeSort_perm _ _
  · exact List.sorted_mergeSort keyLe_trans keyLe_total _
  · exact List.Pairwise.sublist (List.take_sublist _ _)
      (List.sorted_mergeSort keyLe_trans keyLe_total _)
  · intro r hr
    have hmem : r ∈ db.filter (passesFilters (cityParam city) (areaParam area)
        (pincodeParam pincode) max_rent (genderParam gender_pref)
        (amenitiesParam amenities)) :=
      (List.mergeSort_perm _ _).mem_iff.mp hr
    exact ⟨(List.mem_filter.mp hmem).1, (List.mem_filter.mp hmem).2⟩
  · intro hnone
    have hfil : db.filter (passesFilters (cityParam city) (areaParam area)
        (pincodeParam pincode) max_rent (genderParam gender_pref)
        (amenitiesParam amenities)) = [] := by
      rw [List.filter_eq_nil_iff]
      intro r hr
      simp [hnone r hr]
    rw [roomFinder, if_neg (by simp [hg]), hfil, List.mergeSort_nil, List.take_nil]

/-- C7 witness: the theorem instantiated on a one-listing store with no
filters. -/
theorem C7_witness :
    ∃ full : List Room,
      roomFinder [c7Room] none none none none none none 10 = .ok (full.take 10) ∧
      (full.take 10).length ≤ 10 ∧
      full.Perm ([c7Room].filter (passesFilters (cityParam none) (areaParam none)
        (pincodeParam none) none (genderParam none) (amenitiesParam none))) ∧
      full.Pairwise (fun a b => keyLe a b = true) ∧
      (full.take 10).Pairwise (fun a b => keyLe a b = true) ∧
      (∀ r ∈ full, r ∈ [c7Room] ∧ passesFilters (cityParam none) (areaParam none)
        (pincodeParam none) none (genderParam none) (amenitiesParam none) r = true) ∧
      ((∀ r ∈ [c7Room], passesFilters (cityParam none) (areaParam none)
          (pincodeParam none) none (genderParam none) (amenitiesParam none) r = false) →
        roomFinder [c7Room] none none none none none none 10 = .ok []) :=
  C7_finder_filter_sort_truncate [c7Room] none none none none none none 10 (by decide)

/-! ## Claim C8 -/

theorem passesFilters_gender_some (c a p : String) (m : Option Int)
    (am : List String) (r : Room) (gn : String) (hgn : gn ≠ "") :
    passesFilters c a p m (some gn) am r =
      (passesFilters c a p m none am r && (r.gender_pref == "Any" || r.gender_pref == gn)) := by
  simp only [passesFilters, if_pos hgn]
  rw [Bool.eq_iff_iff]
  simp only [Bool.and_eq_true, Bool.or_eq_true, Bool.and_true]
  tauto

theorem passesFilters_gender_empty (c a p : String) (m : Option Int)
    (am : List String) (r : Room) :
    passesFilters c a p m (some "") am r = passesFilters c a p m none am r := by
  simp [passesFilters]

def c8Room : Room :=
  { id := "R040", management_key := "key-c8"
    location := { city := "Bengaluru", area := "HSR", pincode := "560102" }
    rent := 9000, gender_pref := "Male", amenities := []
    description := "d", photo_url := none, date_posted := "2025-08-01"
    is_active := true, expires_at := "2025-08-31", spots_available := 1 }

/-- C8 counterexample: a whitespace-only gender filter `" "` is a non-empty
string that normalizes to `""`, which is outside `{Male, Female, Any}` —
yet `room_finder` neither raises InvalidParameter nor applies the gender
criterion: the `Male`-preference listing is returned even though its
preference is neither `Any` nor the normalized value. -/
theorem C8_counterexample :
    roomFinder [c8Room] none none none none (some " ") none 10 = .ok [c8Room] ∧
    (" " : String) ≠ "" ∧
    capitalize (pyStrip " ") = "" ∧
    capitalize (pyStrip " ") ∉ (["Male", "Female", "Any"] : List String) ∧
    c8Room.gender_pref ≠ "Any" := by
  refine ⟨?_, by decide, by decide, by decide, by decide⟩
  rw [roomFinder, if_neg (by decide)]
  rw [show [c8Room].filter (passesFilters (cityParam none) (areaParam none)
    (pincodeParam none) none (genderParam (some " ")) (amenitiesParam none)) =
    [c8Room] from by decide, List.mergeSort_singleton]
  rfl

/-- C8 (amended): for a supplied non-empty gender filter `g`, when the
normalized (trim+capitalize) value is non-empty and outside
`{Male, Female, Any}` the call is rejected with InvalidParameter; when it
is non-empty a listing passes the gender criterion iff its preference is
`Any` or equals the normalized value; when `g` is whitespace-only the
normalized value is empty and the filter is silently ignored (every
listing passes the gender criterion). -/
theorem C8_gender_filter_criterion (db : List Room) (city area pincode : Option String)
    (max_rent : Option Int) (amenities : Option (List String)) (limit : Nat)
    (g : String) (hg : g ≠ "") :
    (capitalize (pyStrip g) ≠ "" →
      capitalize (pyStrip g) ∉ (["Male", "Female", "Any"] : List String) →
      roomFinder db city area pincode max_rent (some g) amenities limit =
        .invalidParam) ∧
    (capitalize (pyStrip g) ≠ "" →
      ∀ r : Room,
        passesFilters (cityParam city) (areaParam area) (pincodeParam pincode)
          max_rent (genderParam (some g)) (amenitiesParam amenities) r = true ↔
        (passesFilters (cityParam city) (areaParam area) (pincodeParam pincode)
          max_rent none (amenitiesParam amenities) r = true ∧
         (r.gender_pref = "Any" ∨ r.gender_pref = capitalize (pyStrip g)))) ∧
    (capitalize (pyStrip g) = "" →
      ∀ r : Room,
        passesFilters (cityParam city) (areaParam area) (pincodeParam pincode)
          max_rent (genderParam (some g)) (amenitiesParam amenities) r =
        passesFilters (cityParam city) (areaParam area) (pincodeParam pincode)
          max_rent none (amenitiesParam amenities) r) := by
  have hgp : genderParam (some g) = some (capitalize (pyStrip g)) := by
    simp [genderParam, strFalsy, hg]
  refine ⟨?_, ?_, ?_⟩
  · intro hne hmem
    have hbad : genderParamBad (some g) = true := by
      rw [genderParamBad, hgp]
      simp only [Bool.and_eq_true, Bool.not_eq_true']
      constructor
      · simpa using hne
      · simpa using hmem
    rw [roomFinder, if_pos hbad]
  · intro hne r
    rw [hgp, passesFilters_gender_some _ _ _ _ _ _ _ hne]
    simp [Bool.and_eq_true, Bool.or_eq_true, beq_iff_eq]
  · intro h0 r
    rw [hgp, h0, passesFilters_gender_empty]

/-- C8 witness: the amended theorem instantiated — an invalid value is
rejected, and a `Male`-preference listing fails the `Female` criterion. -/
theorem C8_witness :
    roomFinder [c8Room] none none none none (some "unknown") none 10 =
      .invalidParam ∧
    (passesFilters (cityParam none) (areaParam none) (pincodeParam none) none
        (genderParam (some "female")) (amenitiesParam none) c8Room = true ↔
      (passesFilters (cityParam none) (areaParam none) (pincodeParam none) none
        none (amenitiesParam none) c8Room = true ∧
       (c8Room.gender_pref = "Any" ∨
        c8Room.gender_pref = capitalize (pyStrip "female")))) :=
  ⟨(C8_gender_filter_criterion [c8Room] none none none none none 10 "unknown"
      (by decide)).1 (by decide) (by decide),
   (C8_gender_filter_criterion [c8Room] none none none none none 10 "female"
      (by decide)).2.1 (by decide) c8Room⟩

end Roomie
